import Mathlib

/-!
# Animagus executor: a shallow embedding of `pkg/executor/executor.go`

The AST data model follows `pkg/ast/ast.pb.go`; the evaluator follows
`pkg/executor/executor.go` function by function.

Conventions of the embedding:

* `Value_Type` (Go `int32`) is `Int`; the `uint64` payload is a `Nat`, with
  `% 2 ^ 64` written wherever Go arithmetic wraps.
* A Go `(result, error)` return is a `Res`: `ok v`, `err e`, or `panic` for a
  Go run-time panic (index out of range).
* The host `Environment` is an interface whose methods may have side effects,
  so every method takes and returns a host state `σ`, which the evaluator
  threads through in program order.
* A `*ast.Value` inside a tree or an operand list is a non-nil pointer; the nil
  that `Arg` and `Param` may return is `none`.
* `Environment.traced` instruments a host with a log of the calls made on it,
  which is how "calls `IndexParam` once" and "does not consult the environment"
  are stated.
-/

set_option linter.unusedVariables false

namespace Animagus

/-! ## `pkg/ast/ast.pb.go`

The enum type `Value_Type` is `int32`; its values are integers here. -/

abbrev Value_UINT64 : Int := 0
abbrev Value_NIL : Int := 1
abbrev Value_BOOL : Int := 2
abbrev Value_BYTES : Int := 3
abbrev Value_ARG : Int := 16
abbrev Value_PARAM : Int := 17
abbrev Value_OUT_POINT : Int := 18
abbrev Value_CELL_DEP : Int := 19
abbrev Value_SCRIPT : Int := 20
abbrev Value_CELL : Int := 21
abbrev Value_TRANSACTION : Int := 22
abbrev Value_APPLY : Int := 23
abbrev Value_REDUCE : Int := 24
abbrev Value_LIST : Int := 25
abbrev Value_QUERY_CELLS : Int := 26
abbrev Value_MAP : Int := 27
abbrev Value_FILTER : Int := 28
abbrev Value_GET_CAPACITY : Int := 48
abbrev Value_GET_DATA : Int := 49
abbrev Value_GET_LOCK : Int := 50
abbrev Value_GET_TYPE : Int := 51
abbrev Value_GET_DATA_HASH : Int := 52
abbrev Value_GET_OUT_POINT : Int := 53
abbrev Value_GET_CODE_HASH : Int := 54
abbrev Value_GET_HASH_TYPE : Int := 55
abbrev Value_GET_ARGS : Int := 56
abbrev Value_HASH : Int := 73
abbrev Value_NOT : Int := 74
abbrev Value_AND : Int := 75
abbrev Value_OR : Int := 76
abbrev Value_XOR : Int := 77
abbrev Value_EQUAL : Int := 78
abbrev Value_LESS : Int := 79
abbrev Value_LEN : Int := 80
abbrev Value_SLICE : Int := 81
abbrev Value_INDEX : Int := 82
abbrev Value_PLUS : Int := 83
abbrev Value_MINUS : Int := 84

/-- The table `Value_Type_name` of `ast.pb.go`. -/
def Value_Type_name : List (Int × String) :=
  [(0, "UINT64"), (1, "NIL"), (2, "BOOL"), (3, "BYTES"), (16, "ARG"), (17, "PARAM"),
   (18, "OUT_POINT"), (19, "CELL_DEP"), (20, "SCRIPT"), (21, "CELL"), (22, "TRANSACTION"),
   (23, "APPLY"), (24, "REDUCE"), (25, "LIST"), (26, "QUERY_CELLS"), (27, "MAP"),
   (28, "FILTER"), (48, "GET_CAPACITY"), (49, "GET_DATA"), (50, "GET_LOCK"),
   (51, "GET_TYPE"), (52, "GET_DATA_HASH"), (53, "GET_OUT_POINT"), (54, "GET_CODE_HASH"),
   (55, "GET_HASH_TYPE"), (56, "GET_ARGS"), (73, "HASH"), (74, "NOT"), (75, "AND"),
   (76, "OR"), (77, "XOR"), (78, "EQUAL"), (79, "LESS"), (80, "LEN"), (81, "SLICE"),
   (82, "INDEX"), (83, "PLUS"), (84, "MINUS")]

/-- The method `Value_Type.String`: `proto.EnumName(Value_Type_name, int32(x))`, the
table entry when there is one and the decimal numeral otherwise. -/
def Value_Type_String (x : Int) : String :=
  match Value_Type_name.lookup x with
  | some name => name
  | none => toString x

/-- The oneof `isValue_Primitive`: `Value_B`, `Value_U`, `Value_Raw`, or unset. -/
inductive Primitive where
  | unset
  | B (b : Bool)
  | U (u : Nat)
  | Raw (raw : List Nat)
  deriving DecidableEq, Repr

/-- The message `Value`: tag `T`, oneof `Primitive`, repeated `Children`. -/
inductive Value where
  | mk (T : Int) (Primitive : Primitive) (Children : List Value)

namespace Value

def GetT : Value → Int
  | mk t _ _ => t

def GetPrimitive : Value → Primitive
  | mk _ p _ => p

def GetB (m : Value) : Bool :=
  match m.GetPrimitive with
  | .B b => b
  | _ => false

def GetU (m : Value) : Nat :=
  match m.GetPrimitive with
  | .U u => u
  | _ => 0

def GetChildren : Value → List Value
  | mk _ _ c => c

end Value

/-! ## `pkg/executor/executor.go` -/

/-- A Go `error` value, identified with its message. -/
abbrev Error := String

/-- What a Go call returning `(T, error)` does: return a result and a nil error,
return a non-nil error, or panic at run time. -/
inductive Res (α : Type) where
  | ok (v : α)
  | err (e : Error)
  | panic
  deriving DecidableEq, Repr

/-- The interface `Environment`. Each method runs on the host state and leaves a
host state behind; `Arg` and `Param` return `none` for a nil pointer,
`IndexParam` returns `none` for a nil error. -/
structure Environment (σ : Type) where
  Arg : Int → σ → Option Value × σ
  Param : Int → σ → Option Value × σ
  IndexParam : Int → Value → σ → Option Error × σ
  QueryCell : Value → σ → Except Error (List Value) × σ

/-- Modelled from the spec: the type `prependEnvironment` and its methods are not
in `executor.go`. Spec §4.3: a closure Environment wraps a base Environment and a
fixed ordered list of bound arguments; `Arg(i)` resolves against the bound list
first (index 0..len-1), the bound list being prepended ahead of the base
Environment's arguments; `Param`, `IndexParam` and `QueryCell` delegate unchanged
to the base Environment. -/
def prependEnvironment {σ : Type} (e : Environment σ) (args : List Value) : Environment σ where
  Arg := fun i s =>
    if 0 ≤ i ∧ i < (args.length : Int) then (args[i.toNat]?, s)
    else e.Arg (i - (args.length : Int)) s
  Param := e.Param
  IndexParam := e.IndexParam
  QueryCell := e.QueryCell

/-- The Go conversion `int(u)` of a `uint64` on a 64-bit platform. -/
def intOfUint64 (u : Nat) : Int :=
  if u % 2 ^ 64 < 2 ^ 63 then ((u % 2 ^ 64 : Nat) : Int)
  else ((u % 2 ^ 64 : Nat) : Int) - 2 ^ 64

def isPrimitive (expr : Value) : Bool :=
  decide (expr.GetT < Value_ARG)

def isOp (expr : Value) : Bool :=
  decide (expr.GetT ≥ Value_HASH)

def isGetOp (expr : Value) : Bool :=
  decide (expr.GetT ≥ Value_GET_CAPACITY) && decide (expr.GetT < Value_HASH)

/-- The literal `&ast.Value{T: ast.Value_BOOL, Primitive: &ast.Value_B{B: result}}`. -/
def mkBool (result : Bool) : Value :=
  .mk Value_BOOL (.B result) []

/-- The literal `&ast.Value{T: ast.Value_UINT64, Primitive: &ast.Value_U{U: u}}`. -/
def mkUint64 (u : Nat) : Value :=
  .mk Value_UINT64 (.U u) []

mutual
/-- The function `proto.Equal` on two `Value` messages: equal tags, equal oneof
payloads, and children equal pairwise. -/
def protoEqual : Value → Value → Bool
  | .mk t1 p1 c1, .mk t2 p2 c2 => decide (t1 = t2) && decide (p1 = p2) && protoEqualList c1 c2
/-- The comparison of two repeated `Children` fields inside `proto.Equal`. -/
def protoEqualList : List Value → List Value → Bool
  | [], [] => true
  | a :: as, b :: bs => protoEqual a b && protoEqualList as bs
  | _, _ => false
end

/-- The loop of the `AND` case of `evaluateOp`, started with `result := true`:
`.error` is the early `return nil, err`, `.ok false` the `break`. -/
def andLoop : List Value → Except Error Bool
  | [] => .ok true
  | operand :: rest =>
    if operand.GetT ≠ Value_BOOL then
      .error ("Invalid operand type " ++ Value_Type_String operand.GetT ++ " to AND!")
    else if !operand.GetB then .ok false
    else andLoop rest

/-- The function `evaluateOp`; `operands[0]?` and `operands[1]?` are the Go index
expressions `operands[0]` and `operands[1]`, a panic when out of range. -/
def evaluateOp {σ : Type} (op : Int) (operands : List Value) (e : Environment σ)
    (s : σ) : Res Value × σ :=
  if op = Value_EQUAL then
    if operands.length ≠ 2 then (.err "Invalid number of operands to EQUAL", s)
    else
      match operands[0]?, operands[1]? with
      | some x, some y =>
        if x.GetT = Value_PARAM ∧ y.GetT ≠ Value_NIL then
          match e.IndexParam (intOfUint64 x.GetU) y s with
          | (some er, s1) => (.err er, s1)
          | (none, s1) => (.ok (mkBool true), s1)
        else if y.GetT = Value_PARAM ∧ x.GetT ≠ Value_NIL then
          match e.IndexParam (intOfUint64 y.GetU) x s with
          | (some er, s1) => (.err er, s1)
          | (none, s1) => (.ok (mkBool true), s1)
        else (.ok (mkBool (protoEqual x y)), s)
      | _, _ => (.panic, s)
  else if op = Value_PLUS then
    if operands.length ≠ 2 then (.err "Invalid number of operands to PLUS", s)
    else
      match operands[0]?, operands[1]? with
      | some x, some y =>
        if x.GetT ≠ Value_UINT64 ∨ y.GetT ≠ Value_UINT64 then
          (.err "Both operands must be uint64 in PLUS!", s)
        else (.ok (mkUint64 ((x.GetU + y.GetU) % 2 ^ 64)), s)
      | _, _ => (.panic, s)
  else if op = Value_AND then
    if operands.length = 0 then (.err "Invalid number of operands to AND", s)
    else
      match andLoop operands with
      | .error er => (.err er, s)
      | .ok result => (.ok (mkBool result), s)
  else (.err ("Invalid op: " ++ Value_Type_String op), s)

/-- The function `evaluateOpGet`; `item k` is `value.GetChildren()[k]`, a panic
when `k` is out of range. The parameter `e` is unused, as in the source. -/
def evaluateOpGet {σ : Type} (field : Int) (value : Value) (_e : Environment σ) :
    Res Value :=
  let item (k : Nat) : Res Value :=
    match value.GetChildren[k]? with
    | some c => .ok c
    | none => .panic
  if value.GetT = Value_NIL then .ok value
  else if field = Value_GET_CAPACITY then
    if value.GetT ≠ Value_CELL then .err "Cannot fetch capacity on non-cell value!"
    else if value.GetChildren.length ≠ 4 then .err "Invalid number of cell items!"
    else item 0
  else if field = Value_GET_LOCK then
    if value.GetT ≠ Value_CELL then .err "Cannot fetch lock on non-cell value!"
    else if value.GetChildren.length ≠ 4 then .err "Invalid number of cell items!"
    else item 1
  else if field = Value_GET_TYPE then
    if value.GetT ≠ Value_CELL then .err "Cannot fetch type on non-cell value!"
    else if value.GetChildren.length ≠ 4 then .err "Invalid number of cell items!"
    else item 2
  else if field = Value_GET_DATA then
    if value.GetT ≠ Value_CELL then .err "Cannot fetch data on non-cell value!"
    else if value.GetChildren.length ≠ 4 then .err "Invalid number of cell items!"
    else item 3
  else if field = Value_GET_CODE_HASH then
    if value.GetT ≠ Value_SCRIPT then .err "Cannot fetch code hash on non-script value!"
    else if value.GetChildren.length ≠ 3 then .err "Invalid number of script items!"
    else item 0
  else if field = Value_GET_HASH_TYPE then
    if value.GetT ≠ Value_SCRIPT then .err "Cannot fetch hash type on non-script value!"
    else if value.GetChildren.length ≠ 3 then .err "Invalid number of script items!"
    else item 1
  else if field = Value_GET_ARGS then
    if value.GetT ≠ Value_SCRIPT then .err "Cannot fetch args on non-script value!"
    else if value.GetChildren.length ≠ 3 then .err "Invalid number of script items!"
    else item 2
  else .err ("Invalid get field: " ++ Value_Type_String field)

/-- The `for _, value := range list` loop of the `REDUCE` case of `evaluateValue`:
`step currentValue value` is the loop body's call, a failure leaves the loop. -/
def reduceLoop {σ : Type} (step : Value → Value → σ → Res Value × σ) :
    List Value → Value → σ → Res Value × σ
  | [], currentValue, s => (.ok currentValue, s)
  | value :: rest, currentValue, s =>
    match step currentValue value s with
    | (.ok next, s1) => reduceLoop step rest next s1
    | (.err er, s1) => (.err er, s1)
    | (.panic, s1) => (.panic, s1)

/-- The `for i, value := range list` loop of the `MAP` case of `evaluateList`:
`step value` is the loop body's call, a failure leaves the loop. -/
def mapLoop {σ : Type} (step : Value → σ → Res Value × σ) :
    List Value → σ → Res (List Value) × σ
  | [], s => (.ok [], s)
  | value :: rest, s =>
    match step value s with
    | (.ok r, s1) =>
      match mapLoop step rest s1 with
      | (.ok rs, s2) => (.ok (r :: rs), s2)
      | (.err er, s2) => (.err er, s2)
      | (.panic, s2) => (.panic, s2)
    | (.err er, s1) => (.err er, s1)
    | (.panic, s1) => (.panic, s1)

mutual
/-- The function `evaluateValue`; `expr.GetChildren[k]?` is the Go index expression
`expr.GetChildren()[k]`, a panic when out of range, and `drop 1` is the slice `[1:]`. -/
def evaluateValue {σ : Type} (expr : Value) (e : Environment σ) (s : σ) : Res Value × σ :=
  if isPrimitive expr then (.ok expr, s)
  else if isOp expr then
    match evaluateAstValues expr.GetChildren e s with
    | (.ok children, s1) => evaluateOp expr.GetT children e s1
    | (.err er, s1) => (.err er, s1)
    | (.panic, s1) => (.panic, s1)
  else if isGetOp expr then
    if expr.GetChildren.length ≠ 1 then (.err "Invalid number of operands to GET", s)
    else
      match h0 : expr.GetChildren[0]? with
      | none => (.panic, s)
      | some child =>
        match evaluateValue child e s with
        | (.ok operand, s1) => (evaluateOpGet expr.GetT operand e, s1)
        | (.err er, s1) => (.err er, s1)
        | (.panic, s1) => (.panic, s1)
  else if expr.GetT = Value_ARG then
    let index := intOfUint64 expr.GetU
    match e.Arg index s with
    | (none, s1) => (.err ("Cannot find arg index " ++ toString index ++ "!"), s1)
    | (some arg, s1) => (.ok arg, s1)
  else if expr.GetT = Value_PARAM then
    let index := intOfUint64 expr.GetU
    match e.Param index s with
    | (none, s1) => (.err ("Cannot find param index " ++ toString index ++ "!"), s1)
    | (some param, s1) => (.ok param, s1)
  else if expr.GetT = Value_APPLY then
    if expr.GetChildren.length < 1 then (.err "Not enough arguments for apply!", s)
    else
      match evaluateAstValues (expr.GetChildren.drop 1) e s with
      | (.ok args, s1) =>
        match h0 : expr.GetChildren[0]? with
        | none => (.panic, s1)
        | some f => evaluateValue f (prependEnvironment e args) s1
      | (.err er, s1) => (.err er, s1)
      | (.panic, s1) => (.panic, s1)
  else if expr.GetT = Value_REDUCE then
    if expr.GetChildren.length ≠ 3 then (.err "Invalid number of arguments for reduce!", s)
    else
      match h0 : expr.GetChildren[0]? with
      | none => (.panic, s)
      | some f =>
        match h1 : expr.GetChildren[1]? with
        | none => (.panic, s)
        | some init =>
          match evaluateValue init e s with
          | (.ok currentValue, s1) =>
            match h2 : expr.GetChildren[2]? with
            | none => (.panic, s1)
            | some list =>
              match evaluateList list e s1 with
              | (.ok list, s2) =>
                reduceLoop
                  (fun currentValue value s =>
                    evaluateValue f (prependEnvironment e [currentValue, value]) s)
                  list currentValue s2
              | (.err er, s2) => (.err er, s2)
              | (.panic, s2) => (.panic, s2)
          | (.err er, s1) => (.err er, s1)
          | (.panic, s1) => (.panic, s1)
  else (.err ("Invalid value type: " ++ Value_Type_String expr.GetT), s)
termination_by sizeOf expr
decreasing_by
  all_goals simp_wf
  all_goals
    cases expr with
    | mk t p c =>
      simp only [Value.GetChildren, Value.mk.sizeOf_spec] at *
      first
      | omega
      | (cases c with
          | nil => simp
          | cons a l => simp only [List.tail_cons, List.cons.sizeOf_spec]; omega)
      | (have hlt := List.sizeOf_lt_of_mem (List.getElem?_mem (n := 0) (by assumption))
         omega)
      | (have hlt := List.sizeOf_lt_of_mem (List.getElem?_mem (n := 1) (by assumption))
         omega)
      | (have hlt := List.sizeOf_lt_of_mem (List.getElem?_mem (n := 2) (by assumption))
         omega)

/-- The function `evaluateAstValues`: the operands are evaluated in order, the first
failure is returned. -/
def evaluateAstValues {σ : Type} (values : List Value) (e : Environment σ) (s : σ) :
    Res (List Value) × σ :=
  match values with
  | [] => (.ok [], s)
  | value :: rest =>
    match evaluateValue value e s with
    | (.ok v, s1) =>
      match evaluateAstValues rest e s1 with
      | (.ok vs, s2) => (.ok (v :: vs), s2)
      | (.err er, s2) => (.err er, s2)
      | (.panic, s2) => (.panic, s2)
    | (.err er, s1) => (.err er, s1)
    | (.panic, s1) => (.panic, s1)
termination_by sizeOf values
decreasing_by
  all_goals simp_wf
  all_goals omega

/-- The function `evaluateList`; `QueryCell` receives the list node itself. -/
def evaluateList {σ : Type} (list : Value) (e : Environment σ) (s : σ) :
    Res (List Value) × σ :=
  if list.GetT = Value_MAP then
    if list.GetChildren.length ≠ 2 then (.err "Invalid number of lists for map!", s)
    else
      match h0 : list.GetChildren[0]? with
      | none => (.panic, s)
      | some f =>
        match h1 : list.GetChildren[1]? with
        | none => (.panic, s)
        | some inner =>
          match evaluateList inner e s with
          | (.ok list, s1) =>
            mapLoop (fun value s => evaluateValue f (prependEnvironment e [value]) s) list s1
          | (.err er, s1) => (.err er, s1)
          | (.panic, s1) => (.panic, s1)
  else if list.GetT = Value_QUERY_CELLS then
    match e.QueryCell list s with
    | (.ok cells, s1) => (.ok cells, s1)
    | (.error er, s1) => (.err er, s1)
  else (.err ("Invalid list type: " ++ Value_Type_String list.GetT), s)
termination_by sizeOf list
decreasing_by
  all_goals simp_wf
  all_goals
    cases list with
    | mk t p c =>
      simp only [Value.GetChildren, Value.mk.sizeOf_spec] at *
      first
      | (have hlt := List.sizeOf_lt_of_mem (List.getElem?_mem (n := 0) (by assumption))
         omega)
      | (have hlt := List.sizeOf_lt_of_mem (List.getElem?_mem (n := 1) (by assumption))
         omega)
end

def Execute {σ : Type} (expr : Value) (e : Environment σ) (s : σ) : Res Value × σ :=
  evaluateValue expr e s

/-- A call made on the host environment. -/
inductive Call where
  | Arg (i : Int)
  | Param (i : Int)
  | IndexParam (i : Int) (value : Value)
  | QueryCell (query : Value)

/-- The environment `e` instrumented with a log: every method call is appended to
the log, in program order, and otherwise behaves as in `e`. -/
def Environment.traced {σ : Type} (e : Environment σ) : Environment (σ × List Call) where
  Arg := fun i st => ((e.Arg i st.1).1, ((e.Arg i st.1).2, st.2 ++ [Call.Arg i]))
  Param := fun i st => ((e.Param i st.1).1, ((e.Param i st.1).2, st.2 ++ [Call.Param i]))
  IndexParam := fun i v st =>
    ((e.IndexParam i v st.1).1, ((e.IndexParam i v st.1).2, st.2 ++ [Call.IndexParam i v]))
  QueryCell := fun q st =>
    ((e.QueryCell q st.1).1, ((e.QueryCell q st.1).2, st.2 ++ [Call.QueryCell q]))


/-! ## Hosts used to instantiate the theorems -/

/-- A host with no arguments, no parameters, an `IndexParam` that always succeeds
and a `QueryCell` that finds no cell; it has no state. -/
def emptyEnvironment : Environment Unit where
  Arg := fun _ s => (none, s)
  Param := fun _ s => (none, s)
  IndexParam := fun _ _ s => (none, s)
  QueryCell := fun _ s => (.ok [], s)


/-- A host whose parameters are all resolved to UINT64(7): `Param` returns the
value itself, `IndexParam` always succeeds. -/
def resolvedEnvironment : Environment Unit where
  Arg := fun _ s => (none, s)
  Param := fun _ s => (some (mkUint64 7), s)
  IndexParam := fun _ _ s => (none, s)
  QueryCell := fun _ s => (.ok [], s)

/-- A host that leaves its parameters symbolic: `Param(i)` returns the node
PARAM(i), and `IndexParam` records the binding in the host state. -/
def indexingEnvironment : Environment (List (Int × Value)) where
  Arg := fun _ s => (none, s)
  Param := fun i s => (some (.mk Value_PARAM (.U i.toNat) []), s)
  IndexParam := fun i v s => (none, s ++ [(i, v)])
  QueryCell := fun _ s => (.ok [], s)

/-- The node `PARAM(i)`. -/
def mkParam (i : Nat) : Value :=
  .mk Value_PARAM (.U i) []

/-- The node `ARG(i)`. -/
def mkArg (i : Nat) : Value :=
  .mk Value_ARG (.U i) []

/-- The node `EQUAL(PARAM(0), UINT64(42))`. -/
def equalParam0 : Value :=
  .mk Value_EQUAL .unset [mkParam 0, mkUint64 42]

/-- The left fold of spec §4.2 (REDUCE), written from the spec's words: starting from
the accumulator `start`, each element `v` in order replaces the accumulator `a` by
the result of evaluating `f` in the closure environment over `e` with bound
arguments `[a, v]`; once a step has failed, that failure is the result. -/
def reduceSpec {σ : Type} (f : Value) (e : Environment σ) (vs : List Value)
    (start : Res Value × σ) : Res Value × σ :=
  vs.foldl
    (fun acc v =>
      match acc with
      | (.ok a, s) => evaluateValue f (prependEnvironment e [a, v]) s
      | (.err er, s) => (.err er, s)
      | (.panic, s) => (.panic, s))
    start

/-- A host whose `QueryCell` finds the three cells UINT64(1), UINT64(2), UINT64(3). -/
def threeCellsEnvironment : Environment Unit where
  Arg := fun _ s => (none, s)
  Param := fun _ s => (none, s)
  IndexParam := fun _ _ s => (none, s)
  QueryCell := fun _ s => (.ok [mkUint64 1, mkUint64 2, mkUint64 3], s)

/-- The node `PLUS(ARG(0), ARG(1))`. -/
def plusArgs : Value :=
  .mk Value_PLUS .unset [mkArg 0, mkArg 1]

/-- A node `QUERY_CELLS(q)`, with an empty byte string for `q`. -/
def queryCells : Value :=
  .mk Value_QUERY_CELLS .unset [.mk Value_BYTES (.Raw []) []]

/-- The expressions `exprs` evaluate in `e`, one after the other from left to right
and starting in host state `s`, to the values `vs`, leaving host state `s'`. -/
def evalsInOrder {σ : Type} (e : Environment σ) : List Value → σ → List Value → σ → Prop
  | [], s, vs, s' => vs = [] ∧ s' = s
  | a :: rest, s, vs, s' =>
    ∃ v s1 vs', evaluateValue a e s = (.ok v, s1) ∧ vs = v :: vs' ∧
      evalsInOrder e rest s1 vs' s'

/-- The node `APPLY(PLUS(ARG(0), ARG(1)), UINT64(3), UINT64(4))`. -/
def applyPlus34 : Value :=
  .mk Value_APPLY .unset [plusArgs, mkUint64 3, mkUint64 4]

/-- The element-wise map of spec §4.6 (MAP), written from the spec's words: each
element `v` in order is replaced by the result of evaluating `f` in the closure
environment over `e` with bound arguments `[v]`, the results being collected in the
same order; once an element has failed, that failure is the result. -/
def mapSpec {σ : Type} (f : Value) (e : Environment σ) (vs : List Value)
    (start : Res (List Value) × σ) : Res (List Value) × σ :=
  vs.foldl
    (fun acc v =>
      match acc with
      | (.ok rs, s) =>
        match evaluateValue f (prependEnvironment e [v]) s with
        | (.ok r, s1) => (.ok (rs ++ [r]), s1)
        | (.err er, s1) => (.err er, s1)
        | (.panic, s1) => (.panic, s1)
      | (.err er, s) => (.err er, s)
      | (.panic, s) => (.panic, s))
    start

/-- A CELL value with the given capacity, two NIL scripts and empty data. -/
def mkCell (capacity : Nat) : Value :=
  .mk Value_CELL .unset
    [mkUint64 capacity, .mk Value_NIL .unset [], .mk Value_NIL .unset [],
      .mk Value_BYTES (.Raw []) []]

/-- A host whose `QueryCell` finds two cells, of capacities 10 and 20. -/
def twoCellsEnvironment : Environment Unit where
  Arg := fun _ s => (none, s)
  Param := fun _ s => (none, s)
  IndexParam := fun _ _ s => (none, s)
  QueryCell := fun _ s => (.ok [mkCell 10, mkCell 20], s)

/-- The node `MAP(GET_CAPACITY(ARG(0)), QUERY_CELLS(q))`. -/
def mapCapacity : Value :=
  .mk Value_MAP .unset [.mk Value_GET_CAPACITY .unset [mkArg 0], queryCells]

/-- A host whose `QueryCell` answers with the very node it was handed. -/
def echoEnvironment : Environment Unit where
  Arg := fun _ s => (none, s)
  Param := fun _ s => (none, s)
  IndexParam := fun _ _ s => (none, s)
  QueryCell := fun query s => (.ok [query], s)

/-- A host with one bound argument and one parameter: `Arg(0)` is the unevaluated
node PLUS(ARG(0), ARG(1)) and `Param(0)` is UINT64(7); nothing else is bound. -/
def boundEnvironment : Environment Unit where
  Arg := fun i s => (if i = 0 then some plusArgs else none, s)
  Param := fun i s => (if i = 0 then some (mkUint64 7) else none, s)
  IndexParam := fun _ _ s => (none, s)
  QueryCell := fun _ s => (.ok [], s)

/-- A host whose answers are expressions that mention themselves: `Arg(i)` is the
node ARG(i), `Param(i)` is the node PARAM(i), and `QueryCell` answers with the query
node it was handed. -/
def selfReferringEnvironment : Environment Unit where
  Arg := fun i s => (some (.mk Value_ARG (.U i.toNat) []), s)
  Param := fun i s => (some (.mk Value_PARAM (.U i.toNat) []), s)
  IndexParam := fun _ _ s => (none, s)
  QueryCell := fun query s => (.ok [query], s)

/-! ## Unfolding lemmas for the evaluator, one per branch -/

theorem evaluateValue_primitive {σ : Type} (expr : Value) (e : Environment σ) (s : σ)
    (h : expr.GetT < Value_ARG) : evaluateValue expr e s = (.ok expr, s) := by
  rw [evaluateValue]
  simp [isPrimitive, h]

theorem evaluateValue_op {σ : Type} (expr : Value) (e : Environment σ) (s : σ)
    (h : Value_HASH ≤ expr.GetT) :
    evaluateValue expr e s =
      match evaluateAstValues expr.GetChildren e s with
      | (.ok children, s1) => evaluateOp expr.GetT children e s1
      | (.err er, s1) => (.err er, s1)
      | (.panic, s1) => (.panic, s1) := by
  rw [evaluateValue]
  have h1 : ¬ expr.GetT < Value_ARG := by
    simp only [Value_ARG, Value_HASH] at *
    omega
  simp [isPrimitive, isOp, h, h1]

theorem evaluateValue_get {σ : Type} (t : Int) (p : Primitive) (child : Value)
    (e : Environment σ) (s : σ) (h1 : Value_GET_CAPACITY ≤ t) (h2 : t < Value_HASH) :
    evaluateValue (.mk t p [child]) e s =
      match evaluateValue child e s with
      | (.ok operand, s1) => (evaluateOpGet t operand e, s1)
      | (.err er, s1) => (.err er, s1)
      | (.panic, s1) => (.panic, s1) := by
  rw [evaluateValue]
  have h3 : ¬ t < Value_ARG := by
    simp only [Value_ARG, Value_GET_CAPACITY] at *
    omega
  have h4 : ¬ Value_HASH ≤ t := by
    simp only [Value_HASH] at *
    omega
  simp [isPrimitive, isOp, isGetOp, Value.GetT, Value.GetChildren, h1, h2, h3, h4]
  rfl

theorem evaluateValue_arg {σ : Type} (p : Primitive) (cs : List Value)
    (e : Environment σ) (s : σ) :
    evaluateValue (.mk Value_ARG p cs) e s =
      match e.Arg (intOfUint64 (Value.mk Value_ARG p cs).GetU) s with
      | (none, s1) =>
        (.err ("Cannot find arg index " ++
          toString (intOfUint64 (Value.mk Value_ARG p cs).GetU) ++ "!"), s1)
      | (some arg, s1) => (.ok arg, s1) := by
  rw [evaluateValue]
  simp [isPrimitive, isOp, isGetOp, Value.GetT, Value_ARG, Value_HASH, Value_GET_CAPACITY]

theorem evaluateValue_param {σ : Type} (p : Primitive) (cs : List Value)
    (e : Environment σ) (s : σ) :
    evaluateValue (.mk Value_PARAM p cs) e s =
      match e.Param (intOfUint64 (Value.mk Value_PARAM p cs).GetU) s with
      | (none, s1) =>
        (.err ("Cannot find param index " ++
          toString (intOfUint64 (Value.mk Value_PARAM p cs).GetU) ++ "!"), s1)
      | (some param, s1) => (.ok param, s1) := by
  rw [evaluateValue]
  simp [isPrimitive, isOp, isGetOp, Value.GetT, Value_ARG, Value_HASH, Value_GET_CAPACITY,
    Value_PARAM]

theorem evaluateValue_apply {σ : Type} (p : Primitive) (f : Value) (rest : List Value)
    (e : Environment σ) (s : σ) :
    evaluateValue (.mk Value_APPLY p (f :: rest)) e s =
      match evaluateAstValues rest e s with
      | (.ok args, s1) => evaluateValue f (prependEnvironment e args) s1
      | (.err er, s1) => (.err er, s1)
      | (.panic, s1) => (.panic, s1) := by
  rw [evaluateValue]
  simp [isPrimitive, isOp, isGetOp, Value.GetT, Value.GetChildren, Value_ARG, Value_HASH,
    Value_GET_CAPACITY, Value_PARAM, Value_APPLY]
  rcases evaluateAstValues rest e s with ⟨r, s1⟩
  cases r
  · show (match h0 : (f :: rest)[0]? with
      | none => (Res.panic, s1)
      | some f_1 => evaluateValue f_1 (prependEnvironment e _) s1) = _
    split
    · rename_i h0
      simp at h0
    · rename_i f1 h0
      simp only [List.getElem?_cons_zero, Option.some.injEq] at h0
      subst h0
      rfl
  · rfl
  · rfl

theorem evaluateValue_reduce {σ : Type} (p : Primitive) (f init list : Value)
    (e : Environment σ) (s : σ) :
    evaluateValue (.mk Value_REDUCE p [f, init, list]) e s =
      match evaluateValue init e s with
      | (.ok currentValue, s1) =>
        match evaluateList list e s1 with
        | (.ok l, s2) =>
          reduceLoop
            (fun currentValue value s =>
              evaluateValue f (prependEnvironment e [currentValue, value]) s)
            l currentValue s2
        | (.err er, s2) => (.err er, s2)
        | (.panic, s2) => (.panic, s2)
      | (.err er, s1) => (.err er, s1)
      | (.panic, s1) => (.panic, s1) := by
  rw [evaluateValue]
  simp [isPrimitive, isOp, isGetOp, Value.GetT, Value.GetChildren, Value_REDUCE, Value_ARG,
    Value_HASH, Value_GET_CAPACITY, Value_PARAM, Value_APPLY]
  rfl

theorem evaluateAstValues_nil {σ : Type} (e : Environment σ) (s : σ) :
    evaluateAstValues [] e s = (.ok [], s) := by
  rw [evaluateAstValues]

theorem evaluateAstValues_cons {σ : Type} (value : Value) (rest : List Value)
    (e : Environment σ) (s : σ) :
    evaluateAstValues (value :: rest) e s =
      match evaluateValue value e s with
      | (.ok v, s1) =>
        match evaluateAstValues rest e s1 with
        | (.ok vs, s2) => (.ok (v :: vs), s2)
        | (.err er, s2) => (.err er, s2)
        | (.panic, s2) => (.panic, s2)
      | (.err er, s1) => (.err er, s1)
      | (.panic, s1) => (.panic, s1) := by
  rw [evaluateAstValues]

theorem evaluateList_map {σ : Type} (p : Primitive) (f inner : Value)
    (e : Environment σ) (s : σ) :
    evaluateList (.mk Value_MAP p [f, inner]) e s =
      match evaluateList inner e s with
      | (.ok l, s1) =>
        mapLoop (fun value s => evaluateValue f (prependEnvironment e [value]) s) l s1
      | (.err er, s1) => (.err er, s1)
      | (.panic, s1) => (.panic, s1) := by
  rw [evaluateList]
  simp [Value.GetT, Value.GetChildren]
  rfl

theorem evaluateList_query {σ : Type} (list : Value) (e : Environment σ) (s : σ)
    (h : list.GetT = Value_QUERY_CELLS) :
    evaluateList list e s =
      match e.QueryCell list s with
      | (.ok cells, s1) => (.ok cells, s1)
      | (.error er, s1) => (.err er, s1) := by
  rw [evaluateList]
  simp [h, Value_QUERY_CELLS, Value_MAP]

mutual
theorem protoEqual_iff : ∀ (x y : Value), protoEqual x y = true ↔ x = y
  | .mk t1 p1 c1, .mk t2 p2 c2 => by
    rw [protoEqual]
    simp only [Bool.and_eq_true, decide_eq_true_eq, Value.mk.injEq]
    rw [protoEqualList_iff c1 c2]
    tauto
theorem protoEqualList_iff : ∀ (xs ys : List Value), protoEqualList xs ys = true ↔ xs = ys
  | [], [] => by simp [protoEqualList]
  | [], _ :: _ => by simp [protoEqualList]
  | _ :: _, [] => by simp [protoEqualList]
  | a :: as, b :: bs => by
    rw [protoEqualList]
    simp only [Bool.and_eq_true, List.cons.injEq]
    rw [protoEqual_iff a b, protoEqualList_iff as bs]
end

/-! ## The claims -/

theorem andLoop_of_all_bool (operands : List Value)
    (h : ∀ v ∈ operands, v.GetT = Value_BOOL) :
    andLoop operands = .ok (operands.all fun v => v.GetB) := by
  induction operands with
  | nil => rfl
  | cons a l ih =>
    have ha : a.GetT = Value_BOOL := h a (List.mem_cons_self a l)
    have hl : ∀ v ∈ l, v.GetT = Value_BOOL := fun v hv => h v (List.mem_cons_of_mem a hv)
    rw [andLoop]
    cases hb : a.GetB <;> simp [ha, hb, ih hl]

/-- C1: for every environment, host state and Value whose tag is below ARG (16),
whatever its payload and children, `Execute` returns that same Value and no error,
and leaves the host untouched: the host state is unchanged, and on the instrumented
host the log of environment calls is unchanged. -/
theorem C1_primitive_identity {σ : Type} (e : Environment σ) (s : σ) (log : List Call)
    (expr : Value) (h : expr.GetT < Value_ARG) :
    Execute expr e s = (.ok expr, s) ∧
      Execute expr e.traced (s, log) = (.ok expr, (s, log)) :=
  ⟨evaluateValue_primitive expr e s h, evaluateValue_primitive expr e.traced (s, log) h⟩

theorem C1_primitive_identity_witness :
    (Value.mk Value_BYTES (.B true) [mkUint64 9]).GetT < Value_ARG ∧
      Execute (Value.mk Value_BYTES (.B true) [mkUint64 9]) emptyEnvironment () =
        (.ok (Value.mk Value_BYTES (.B true) [mkUint64 9]), ()) :=
  ⟨by decide, (C1_primitive_identity emptyEnvironment () [] _ (by decide)).1⟩

/-- C2: on already-evaluated operands, PLUS succeeds if and only if there are exactly
2 operands and both are tagged UINT64; it then returns UINT64((x + y) mod 2^64) for
the operands' unsigned payloads x and y, with the host untouched; in every other case
it returns an error. PLUS(5, 7) = 12, PLUS(2^64 - 1, 1) = 0, PLUS(BOOL(true), 1)
fails. -/
theorem C2_plus_uint64_wraparound {σ : Type} (e : Environment σ) (s : σ)
    (operands : List Value) :
    ((∃ v s1, evaluateOp Value_PLUS operands e s = (.ok v, s1)) ↔
        ∃ x y, operands = [x, y] ∧ x.GetT = Value_UINT64 ∧ y.GetT = Value_UINT64) ∧
    (∀ x y, operands = [x, y] → x.GetT = Value_UINT64 → y.GetT = Value_UINT64 →
        evaluateOp Value_PLUS operands e s =
          (.ok (mkUint64 ((x.GetU + y.GetU) % 2 ^ 64)), s)) ∧
    ((¬ ∃ x y, operands = [x, y] ∧ x.GetT = Value_UINT64 ∧ y.GetT = Value_UINT64) →
        ∃ er, evaluateOp Value_PLUS operands e s = (.err er, s)) ∧
    evaluateOp Value_PLUS [mkUint64 5, mkUint64 7] e s = (.ok (mkUint64 12), s) ∧
    evaluateOp Value_PLUS [mkUint64 (2 ^ 64 - 1), mkUint64 1] e s = (.ok (mkUint64 0), s) ∧
    (∃ er, evaluateOp Value_PLUS [mkBool true, mkUint64 1] e s = (.err er, s)) := by
  have hval : ∀ x y : Value, x.GetT = Value_UINT64 → y.GetT = Value_UINT64 →
      evaluateOp Value_PLUS [x, y] e s =
        (.ok (mkUint64 ((x.GetU + y.GetU) % 2 ^ 64)), s) := by
    intro x y hx hy
    simp [evaluateOp, hx, hy, Value_PLUS, Value_EQUAL]
  have hfail : (¬ ∃ x y, operands = [x, y] ∧ x.GetT = Value_UINT64 ∧ y.GetT = Value_UINT64) →
      ∃ er, evaluateOp Value_PLUS operands e s = (.err er, s) := by
    intro hn
    match operands with
    | [] => exact ⟨"Invalid number of operands to PLUS", by simp [evaluateOp, Value_PLUS, Value_EQUAL]⟩
    | [_] => exact ⟨"Invalid number of operands to PLUS", by simp [evaluateOp, Value_PLUS, Value_EQUAL]⟩
    | _ :: _ :: _ :: _ => exact ⟨"Invalid number of operands to PLUS", by simp [evaluateOp, Value_PLUS, Value_EQUAL]⟩
    | [x, y] =>
      have hxy : x.GetT ≠ Value_UINT64 ∨ y.GetT ≠ Value_UINT64 := by
        by_contra hc
        push_neg at hc
        exact hn ⟨x, y, rfl, hc.1, hc.2⟩
      refine ⟨"Both operands must be uint64 in PLUS!", ?_⟩
      simp only [evaluateOp, Value_PLUS, Value_EQUAL]
      simp [hxy]
  refine ⟨⟨?_, ?_⟩, ?_, hfail, ?_, ?_, ?_⟩
  · rintro ⟨v, s1, hv⟩
    by_contra hn
    obtain ⟨er, her⟩ := hfail hn
    rw [her] at hv
    simp at hv
  · rintro ⟨x, y, rfl, hx, hy⟩
    exact ⟨_, _, hval x y hx hy⟩
  · rintro x y rfl hx hy
    exact hval x y hx hy
  · exact hval _ _ rfl rfl
  · have := hval (mkUint64 (2 ^ 64 - 1)) (mkUint64 1) rfl rfl
    simpa [mkUint64, Value.GetU, Value.GetPrimitive] using this
  · exact ⟨"Both operands must be uint64 in PLUS!", by
      simp [evaluateOp, mkBool, mkUint64, Value.GetT, Value_PLUS, Value_EQUAL, Value_BOOL,
        Value_UINT64]⟩

theorem C2_plus_uint64_wraparound_witness :
    evaluateOp Value_PLUS [mkUint64 (2 ^ 64 - 3), mkUint64 10] emptyEnvironment () =
      (.ok (mkUint64 ((2 ^ 64 - 3 + 10) % 2 ^ 64)), ()) :=
  (C2_plus_uint64_wraparound emptyEnvironment () [mkUint64 (2 ^ 64 - 3), mkUint64 10]).2.1
    (mkUint64 (2 ^ 64 - 3)) (mkUint64 10) rfl rfl rfl

/-- C3: on a non-empty list of already-evaluated operands that are all tagged BOOL,
AND succeeds and returns BOOL(b), where b is true if and only if every operand's
boolean payload is true, with the host untouched; on the empty operand list AND
fails. AND(true, true, false) = BOOL(false). -/
theorem C3_and_all_bool {σ : Type} (e : Environment σ) (s : σ) (operands : List Value) :
    (operands ≠ [] → (∀ v ∈ operands, v.GetT = Value_BOOL) →
        ∃ b, evaluateOp Value_AND operands e s = (.ok (mkBool b), s) ∧
          (b = true ↔ ∀ v ∈ operands, v.GetB = true)) ∧
    (∃ er, evaluateOp Value_AND [] e s = (.err er, s)) ∧
    evaluateOp Value_AND [mkBool true, mkBool true, mkBool false] e s =
      (.ok (mkBool false), s) := by
  have hmain : ∀ ops : List Value, ops ≠ [] → (∀ v ∈ ops, v.GetT = Value_BOOL) →
      evaluateOp Value_AND ops e s = (.ok (mkBool (ops.all fun v => v.GetB)), s) := by
    intro ops hne hall
    have hlen : ops.length ≠ 0 := by simpa using hne
    simp [evaluateOp, Value_AND, Value_EQUAL, Value_PLUS, hne, andLoop_of_all_bool ops hall]
  refine ⟨?_, ?_, ?_⟩
  · intro hne hall
    exact ⟨_, hmain operands hne hall, by simp⟩
  · exact ⟨"Invalid number of operands to AND", by
      simp [evaluateOp, Value_AND, Value_EQUAL, Value_PLUS]⟩
  · have := hmain [mkBool true, mkBool true, mkBool false] (by simp)
      (by simp [mkBool, Value.GetT])
    simpa [mkBool, Value.GetB, Value.GetPrimitive] using this

theorem C3_and_all_bool_witness :
    ∃ b, evaluateOp Value_AND [mkBool true, mkBool false] emptyEnvironment () =
        (.ok (mkBool b), ()) ∧
      (b = true ↔ ∀ v ∈ [mkBool true, mkBool false], v.GetB = true) :=
  (C3_and_all_bool emptyEnvironment () [mkBool true, mkBool false]).1 (by simp)
    (by simp [mkBool, Value.GetT])

theorem intOfUint64_of_lt (u : Nat) (h : u < 2 ^ 63) : intOfUint64 u = (u : Int) := by
  have h1 : u % 2 ^ 64 = u := Nat.mod_eq_of_lt (by omega)
  unfold intOfUint64
  rw [h1, if_pos h]

theorem evaluateOp_equal {σ : Type} (x y : Value) (e : Environment σ) (s : σ) :
    evaluateOp Value_EQUAL [x, y] e s =
      if x.GetT = Value_PARAM ∧ y.GetT ≠ Value_NIL then
        match e.IndexParam (intOfUint64 x.GetU) y s with
        | (some er, s1) => (.err er, s1)
        | (none, s1) => (.ok (mkBool true), s1)
      else if y.GetT = Value_PARAM ∧ x.GetT ≠ Value_NIL then
        match e.IndexParam (intOfUint64 y.GetU) x s with
        | (some er, s1) => (.err er, s1)
        | (none, s1) => (.ok (mkBool true), s1)
      else (.ok (mkBool (protoEqual x y)), s) := by
  simp [evaluateOp]

/-- C4: for already-evaluated operands x, y of which neither is tagged PARAM, or of
which exactly one is tagged PARAM and the other is tagged NIL, EQUAL succeeds and
returns BOOL(b) with b true exactly when x and y are structurally equal; the host
state is unchanged and, on the instrumented host, so is the call log (no IndexParam
call). EQUAL(3, 3) = BOOL(true) and EQUAL(3, 4) = BOOL(false). -/
theorem C4_equal_structural {σ : Type} (e : Environment σ) (s : σ) (log : List Call)
    (x y : Value)
    (h : (x.GetT ≠ Value_PARAM ∧ y.GetT ≠ Value_PARAM) ∨
      (x.GetT = Value_PARAM ∧ y.GetT = Value_NIL) ∨
      (y.GetT = Value_PARAM ∧ x.GetT = Value_NIL)) :
    (∃ b, evaluateOp Value_EQUAL [x, y] e s = (.ok (mkBool b), s) ∧
        (b = true ↔ x = y) ∧
        evaluateOp Value_EQUAL [x, y] e.traced (s, log) = (.ok (mkBool b), (s, log))) ∧
    evaluateOp Value_EQUAL [mkUint64 3, mkUint64 3] e s = (.ok (mkBool true), s) ∧
    evaluateOp Value_EQUAL [mkUint64 3, mkUint64 4] e s = (.ok (mkBool false), s) := by
  have hgen : ∀ {τ : Type} (e1 : Environment τ) (s1 : τ) (a b : Value),
      ((a.GetT ≠ Value_PARAM ∧ b.GetT ≠ Value_PARAM) ∨
        (a.GetT = Value_PARAM ∧ b.GetT = Value_NIL) ∨
        (b.GetT = Value_PARAM ∧ a.GetT = Value_NIL)) →
      evaluateOp Value_EQUAL [a, b] e1 s1 = (.ok (mkBool (protoEqual a b)), s1) := by
    intro τ e1 s1 a b hab
    rw [evaluateOp_equal]
    have h1 : ¬ (a.GetT = Value_PARAM ∧ b.GetT ≠ Value_NIL) := by
      rcases hab with h | h | h
      · exact fun hc => h.1 hc.1
      · exact fun hc => hc.2 h.2
      · intro hc
        rw [h.2] at hc
        exact absurd hc.1 (by decide)
    have h2 : ¬ (b.GetT = Value_PARAM ∧ a.GetT ≠ Value_NIL) := by
      rcases hab with h | h | h
      · exact fun hc => h.2 hc.1
      · intro hc
        rw [h.2] at hc
        exact absurd hc.1 (by decide)
      · exact fun hc => hc.2 h.2
    rw [if_neg h1, if_neg h2]
  refine ⟨⟨protoEqual x y, hgen e s x y h, protoEqual_iff x y, hgen e.traced (s, log) x y h⟩,
    ?_, ?_⟩
  · rw [hgen e s _ _ (Or.inl ⟨by decide, by decide⟩)]
    have : protoEqual (mkUint64 3) (mkUint64 3) = true := (protoEqual_iff _ _).2 rfl
    rw [this]
  · rw [hgen e s _ _ (Or.inl ⟨by decide, by decide⟩)]
    have : protoEqual (mkUint64 3) (mkUint64 4) = false := by
      rw [Bool.eq_false_iff]
      intro hc
      have := (protoEqual_iff _ _).1 hc
      simp [mkUint64] at this
    rw [this]

theorem C4_equal_structural_witness :
    ∃ b, evaluateOp Value_EQUAL [mkParam 1, Value.mk Value_NIL .unset []] emptyEnvironment () =
        (.ok (mkBool b), ()) ∧
      (b = true ↔ mkParam 1 = Value.mk Value_NIL .unset []) ∧
      evaluateOp Value_EQUAL [mkParam 1, Value.mk Value_NIL .unset []]
        emptyEnvironment.traced ((), []) = (.ok (mkBool b), ((), [])) :=
  (C4_equal_structural emptyEnvironment () [] (mkParam 1) (Value.mk Value_NIL .unset [])
    (Or.inr (Or.inl ⟨rfl, rfl⟩))).1

/-- C5: for already-evaluated operands of which exactly one, p, is tagged PARAM and
the other, v, is not tagged NIL, in either operand order, EQUAL makes exactly one
call on the host, `IndexParam(int(i), v)` with i the unsigned payload of p (the
instrumented host's log grows by exactly that call); when the call succeeds the
result is BOOL(true), when it fails EQUAL returns exactly that error, in both cases
with the host state the call left. The index `int(i)` is i itself for i < 2^63. -/
theorem C5_equal_param_binding {σ : Type} (e : Environment σ) (s : σ) (log : List Call)
    (p v : Value) (hp : p.GetT = Value_PARAM) (hv : v.GetT ≠ Value_PARAM)
    (hnil : v.GetT ≠ Value_NIL) :
    (∀ s1, e.IndexParam (intOfUint64 p.GetU) v s = (none, s1) →
        evaluateOp Value_EQUAL [p, v] e s = (.ok (mkBool true), s1) ∧
        evaluateOp Value_EQUAL [v, p] e s = (.ok (mkBool true), s1)) ∧
    (∀ er s1, e.IndexParam (intOfUint64 p.GetU) v s = (some er, s1) →
        evaluateOp Value_EQUAL [p, v] e s = (.err er, s1) ∧
        evaluateOp Value_EQUAL [v, p] e s = (.err er, s1)) ∧
    (evaluateOp Value_EQUAL [p, v] e.traced (s, log)).2.2 =
      log ++ [Call.IndexParam (intOfUint64 p.GetU) v] ∧
    (evaluateOp Value_EQUAL [v, p] e.traced (s, log)).2.2 =
      log ++ [Call.IndexParam (intOfUint64 p.GetU) v] ∧
    (p.GetU < 2 ^ 63 → intOfUint64 p.GetU = (p.GetU : Int)) := by
  have hpv : ∀ {τ : Type} (e1 : Environment τ) (s1 : τ),
      evaluateOp Value_EQUAL [p, v] e1 s1 =
        match e1.IndexParam (intOfUint64 p.GetU) v s1 with
        | (some er, s2) => (.err er, s2)
        | (none, s2) => (.ok (mkBool true), s2) := by
    intro τ e1 s1
    rw [evaluateOp_equal, if_pos ⟨hp, hnil⟩]
  have hvp : ∀ {τ : Type} (e1 : Environment τ) (s1 : τ),
      evaluateOp Value_EQUAL [v, p] e1 s1 =
        match e1.IndexParam (intOfUint64 p.GetU) v s1 with
        | (some er, s2) => (.err er, s2)
        | (none, s2) => (.ok (mkBool true), s2) := by
    intro τ e1 s1
    have hpn : p.GetT ≠ Value_NIL := by
      rw [hp]
      decide
    rw [evaluateOp_equal, if_neg (fun hc => hv hc.1), if_pos ⟨hp, hnil⟩]
  refine ⟨?_, ?_, ?_, ?_, intOfUint64_of_lt _⟩
  · intro s1 h1
    rw [hpv, hvp, h1]
    exact ⟨rfl, rfl⟩
  · intro er s1 h1
    rw [hpv, hvp, h1]
    exact ⟨rfl, rfl⟩
  · rw [hpv]
    simp only [Environment.traced]
    rcases e.IndexParam (intOfUint64 p.GetU) v s with ⟨_ | er, s1⟩ <;> rfl
  · rw [hvp]
    simp only [Environment.traced]
    rcases e.IndexParam (intOfUint64 p.GetU) v s with ⟨_ | er, s1⟩ <;> rfl

theorem C5_equal_param_binding_witness :
    (evaluateOp Value_EQUAL [mkUint64 42, mkParam 3] indexingEnvironment.traced ([], [])).2.2 =
      [] ++ [Call.IndexParam (intOfUint64 (mkParam 3).GetU) (mkUint64 42)] :=
  (C5_equal_param_binding indexingEnvironment [] [] (mkParam 3) (mkUint64 42) rfl
    (by decide) (by decide)).2.2.2.1

theorem evaluateValue_equalParam0 {σ : Type} (e : Environment σ) (s : σ) :
    evaluateValue equalParam0 e s =
      match e.Param 0 s with
      | (none, s1) => (.err "Cannot find param index 0!", s1)
      | (some p, s1) => evaluateOp Value_EQUAL [p, mkUint64 42] e s1 := by
  have h42 : evaluateValue (mkUint64 42) e = fun s1 => (.ok (mkUint64 42), s1) := by
    funext s1
    exact evaluateValue_primitive _ e s1 (by decide)
  have hidx : intOfUint64 (Value.mk Value_PARAM (.U 0) []).GetU = 0 := by decide
  rw [equalParam0, evaluateValue_op _ e s (by decide)]
  simp only [Value.GetChildren, Value.GetT, mkParam, evaluateAstValues_cons,
    evaluateAstValues_nil, evaluateValue_param, h42, hidx]
  rcases e.Param 0 s with ⟨_ | p, s1⟩ <;> rfl

/-- C6 fails as stated: on a host that resolves parameter 0 to UINT64(7) and whose
`IndexParam(0, UINT64(42))` would succeed, `Execute` of EQUAL(PARAM(0), UINT64(42))
returns BOOL(false), not BOOL(true), and the only host call is `Param(0)`:
`IndexParam` is not called. -/
theorem C6_counterexample :
    resolvedEnvironment.IndexParam 0 (mkUint64 42) () = (none, ()) ∧
      Execute equalParam0 resolvedEnvironment () = (.ok (mkBool false), ()) ∧
      Execute equalParam0 resolvedEnvironment.traced ((), []) =
        (.ok (mkBool false), ((), [Call.Param 0])) := by
  have hne : protoEqual (mkUint64 7) (mkUint64 42) = false := by
    rw [Bool.eq_false_iff]
    intro hc
    have := (protoEqual_iff _ _).1 hc
    simp [mkUint64] at this
  refine ⟨rfl, ?_, ?_⟩
  · rw [Execute, evaluateValue_equalParam0]
    simp only [resolvedEnvironment]
    rw [evaluateOp_equal, if_neg (by decide), if_neg (by decide), hne]
  · rw [Execute, evaluateValue_equalParam0]
    simp only [resolvedEnvironment, Environment.traced, List.nil_append]
    rw [evaluateOp_equal, if_neg (by decide), if_neg (by decide), hne]

/-- C6, amended: for every environment whose `Param(0)` returns a value tagged PARAM
with unsigned payload 0 (the parameter left symbolic), `Execute` of
EQUAL(PARAM(0), UINT64(42)) calls `Param(0)` and then `IndexParam(0, UINT64(42))`,
once each and nothing else; when the `IndexParam` call succeeds `Execute` returns
BOOL(true), and when it fails `Execute` returns that same error and no BOOL. -/
theorem C6_equal_param0_binding {σ : Type} (e : Environment σ) (s s1 : σ) (log : List Call)
    (p : Value) (hparam : e.Param 0 s = (some p, s1)) (hp : p.GetT = Value_PARAM)
    (hu : p.GetU = 0) :
    (∀ s2, e.IndexParam 0 (mkUint64 42) s1 = (none, s2) →
        Execute equalParam0 e s = (.ok (mkBool true), s2)) ∧
    (∀ er s2, e.IndexParam 0 (mkUint64 42) s1 = (some er, s2) →
        Execute equalParam0 e s = (.err er, s2)) ∧
    (Execute equalParam0 e.traced (s, log)).2.2 =
      log ++ [Call.Param 0, Call.IndexParam 0 (mkUint64 42)] := by
  have hidx : intOfUint64 p.GetU = 0 := by
    rw [hu]
    decide
  have hstep : ∀ {τ : Type} (e1 : Environment τ) (t : τ),
      evaluateOp Value_EQUAL [p, mkUint64 42] e1 t =
        match e1.IndexParam 0 (mkUint64 42) t with
        | (some er, t2) => (.err er, t2)
        | (none, t2) => (.ok (mkBool true), t2) := by
    intro τ e1 t
    rw [evaluateOp_equal, if_pos ⟨hp, by decide⟩, hidx]
  refine ⟨?_, ?_, ?_⟩
  · intro s2 h2
    rw [Execute, evaluateValue_equalParam0, hparam]
    simp only [hstep, h2]
  · intro er s2 h2
    rw [Execute, evaluateValue_equalParam0, hparam]
    simp only [hstep, h2]
  · rw [Execute, evaluateValue_equalParam0]
    simp only [Environment.traced, hparam, hstep]
    rcases e.IndexParam 0 (mkUint64 42) s1 with ⟨_ | er, s2⟩ <;> simp

theorem C6_equal_param0_binding_witness :
    indexingEnvironment.Param 0 [] = (some (mkParam 0), []) ∧
      Execute equalParam0 indexingEnvironment [] =
        (.ok (mkBool true), [((0 : Int), mkUint64 42)]) :=
  ⟨rfl, (C6_equal_param0_binding indexingEnvironment [] [] [] (mkParam 0) rfl rfl rfl).1
    [((0 : Int), mkUint64 42)] rfl⟩

theorem getElem?_of_lt (l : List Value) (k : Nat) (h : k < l.length) :
    ∃ c, l[k]? = some c :=
  ⟨l[k], List.getElem?_eq_getElem h⟩

theorem evaluateOpGet_cell {σ : Type} (e : Environment σ) (p : Primitive)
    (c0 c1 c2 c3 : Value) :
    evaluateOpGet Value_GET_CAPACITY (.mk Value_CELL p [c0, c1, c2, c3]) e = .ok c0 ∧
    evaluateOpGet Value_GET_LOCK (.mk Value_CELL p [c0, c1, c2, c3]) e = .ok c1 ∧
    evaluateOpGet Value_GET_TYPE (.mk Value_CELL p [c0, c1, c2, c3]) e = .ok c2 ∧
    evaluateOpGet Value_GET_DATA (.mk Value_CELL p [c0, c1, c2, c3]) e = .ok c3 := by
  refine ⟨?_, ?_, ?_, ?_⟩ <;>
    simp [evaluateOpGet, Value.GetT, Value.GetChildren, Value_CELL, Value_NIL,
      Value_GET_CAPACITY, Value_GET_LOCK, Value_GET_TYPE, Value_GET_DATA]

theorem evaluateOpGet_script {σ : Type} (e : Environment σ) (p : Primitive)
    (c0 c1 c2 : Value) :
    evaluateOpGet Value_GET_CODE_HASH (.mk Value_SCRIPT p [c0, c1, c2]) e = .ok c0 ∧
    evaluateOpGet Value_GET_HASH_TYPE (.mk Value_SCRIPT p [c0, c1, c2]) e = .ok c1 ∧
    evaluateOpGet Value_GET_ARGS (.mk Value_SCRIPT p [c0, c1, c2]) e = .ok c2 := by
  refine ⟨?_, ?_, ?_⟩ <;>
    simp [evaluateOpGet, Value.GetT, Value.GetChildren, Value_SCRIPT, Value_NIL,
      Value_GET_CAPACITY, Value_GET_LOCK, Value_GET_TYPE, Value_GET_DATA,
      Value_GET_CODE_HASH, Value_GET_HASH_TYPE, Value_GET_ARGS]

/-- The shape shared by the seven field cases of `evaluateOpGet`: a tag check, a
length check, then `value.GetChildren()[k]`. -/
theorem project_spec (value : Value) (tag : Int) (arity k : Nat) (hk : k < arity)
    (msg1 msg2 : Error) (r : Res Value)
    (hr : r = if value.GetT ≠ tag then .err msg1
      else if value.GetChildren.length ≠ arity then .err msg2
      else match value.GetChildren[k]? with
        | some c => .ok c
        | none => .panic) :
    (∀ c, r = .ok c ↔
      (value.GetT = tag ∧ value.GetChildren.length = arity ∧ value.GetChildren[k]? = some c)) ∧
    ((∃ c, r = .ok c) ↔ (value.GetT = tag ∧ value.GetChildren.length = arity)) ∧
    ((¬ (value.GetT = tag ∧ value.GetChildren.length = arity)) → ∃ er, r = .err er) := by
  subst hr
  by_cases ht : value.GetT = tag
  · by_cases hl : value.GetChildren.length = arity
    · obtain ⟨c0, hc0⟩ := getElem?_of_lt value.GetChildren k (by omega)
      simp [ht, hl, hc0]
    · simp [ht, hl]
  · simp [ht]

theorem evaluateOpGet_GET_CAPACITY {σ : Type} (e : Environment σ) (value : Value)
    (hnil : value.GetT ≠ Value_NIL) :
    evaluateOpGet Value_GET_CAPACITY value e =
      if value.GetT ≠ Value_CELL then .err "Cannot fetch capacity on non-cell value!"
      else if value.GetChildren.length ≠ 4 then .err "Invalid number of cell items!"
      else match value.GetChildren[0]? with
        | some c => .ok c
        | none => .panic := by
  simp [evaluateOpGet, hnil, Value_GET_CAPACITY, Value_GET_LOCK, Value_GET_TYPE, Value_GET_DATA,
    Value_GET_CODE_HASH, Value_GET_HASH_TYPE, Value_GET_ARGS]

theorem evaluateOpGet_GET_LOCK {σ : Type} (e : Environment σ) (value : Value)
    (hnil : value.GetT ≠ Value_NIL) :
    evaluateOpGet Value_GET_LOCK value e =
      if value.GetT ≠ Value_CELL then .err "Cannot fetch lock on non-cell value!"
      else if value.GetChildren.length ≠ 4 then .err "Invalid number of cell items!"
      else match value.GetChildren[1]? with
        | some c => .ok c
        | none => .panic := by
  simp [evaluateOpGet, hnil, Value_GET_CAPACITY, Value_GET_LOCK, Value_GET_TYPE, Value_GET_DATA,
    Value_GET_CODE_HASH, Value_GET_HASH_TYPE, Value_GET_ARGS]

theorem evaluateOpGet_GET_TYPE {σ : Type} (e : Environment σ) (value : Value)
    (hnil : value.GetT ≠ Value_NIL) :
    evaluateOpGet Value_GET_TYPE value e =
      if value.GetT ≠ Value_CELL then .err "Cannot fetch type on non-cell value!"
      else if value.GetChildren.length ≠ 4 then .err "Invalid number of cell items!"
      else match value.GetChildren[2]? with
        | some c => .ok c
        | none => .panic := by
  simp [evaluateOpGet, hnil, Value_GET_CAPACITY, Value_GET_LOCK, Value_GET_TYPE, Value_GET_DATA,
    Value_GET_CODE_HASH, Value_GET_HASH_TYPE, Value_GET_ARGS]

theorem evaluateOpGet_GET_DATA {σ : Type} (e : Environment σ) (value : Value)
    (hnil : value.GetT ≠ Value_NIL) :
    evaluateOpGet Value_GET_DATA value e =
      if value.GetT ≠ Value_CELL then .err "Cannot fetch data on non-cell value!"
      else if value.GetChildren.length ≠ 4 then .err "Invalid number of cell items!"
      else match value.GetChildren[3]? with
        | some c => .ok c
        | none => .panic := by
  simp [evaluateOpGet, hnil, Value_GET_CAPACITY, Value_GET_LOCK, Value_GET_TYPE, Value_GET_DATA,
    Value_GET_CODE_HASH, Value_GET_HASH_TYPE, Value_GET_ARGS]

theorem evaluateOpGet_GET_CODE_HASH {σ : Type} (e : Environment σ) (value : Value)
    (hnil : value.GetT ≠ Value_NIL) :
    evaluateOpGet Value_GET_CODE_HASH value e =
      if value.GetT ≠ Value_SCRIPT then .err "Cannot fetch code hash on non-script value!"
      else if value.GetChildren.length ≠ 3 then .err "Invalid number of script items!"
      else match value.GetChildren[0]? with
        | some c => .ok c
        | none => .panic := by
  simp [evaluateOpGet, hnil, Value_GET_CAPACITY, Value_GET_LOCK, Value_GET_TYPE, Value_GET_DATA,
    Value_GET_CODE_HASH, Value_GET_HASH_TYPE, Value_GET_ARGS]

theorem evaluateOpGet_GET_HASH_TYPE {σ : Type} (e : Environment σ) (value : Value)
    (hnil : value.GetT ≠ Value_NIL) :
    evaluateOpGet Value_GET_HASH_TYPE value e =
      if value.GetT ≠ Value_SCRIPT then .err "Cannot fetch hash type on non-script value!"
      else if value.GetChildren.length ≠ 3 then .err "Invalid number of script items!"
      else match value.GetChildren[1]? with
        | some c => .ok c
        | none => .panic := by
  simp [evaluateOpGet, hnil, Value_GET_CAPACITY, Value_GET_LOCK, Value_GET_TYPE, Value_GET_DATA,
    Value_GET_CODE_HASH, Value_GET_HASH_TYPE, Value_GET_ARGS]

theorem evaluateOpGet_GET_ARGS {σ : Type} (e : Environment σ) (value : Value)
    (hnil : value.GetT ≠ Value_NIL) :
    evaluateOpGet Value_GET_ARGS value e =
      if value.GetT ≠ Value_SCRIPT then .err "Cannot fetch args on non-script value!"
      else if value.GetChildren.length ≠ 3 then .err "Invalid number of script items!"
      else match value.GetChildren[2]? with
        | some c => .ok c
        | none => .panic := by
  simp [evaluateOpGet, hnil, Value_GET_CAPACITY, Value_GET_LOCK, Value_GET_TYPE, Value_GET_DATA,
    Value_GET_CODE_HASH, Value_GET_HASH_TYPE, Value_GET_ARGS]

theorem evaluateOpGet_other {σ : Type} (e : Environment σ) (field : Int) (value : Value)
    (hnil : value.GetT ≠ Value_NIL)
    (h1 : field ≠ Value_GET_CAPACITY) (h2 : field ≠ Value_GET_LOCK)
    (h3 : field ≠ Value_GET_TYPE) (h4 : field ≠ Value_GET_DATA)
    (h5 : field ≠ Value_GET_CODE_HASH) (h6 : field ≠ Value_GET_HASH_TYPE)
    (h7 : field ≠ Value_GET_ARGS) :
    evaluateOpGet field value e = .err ("Invalid get field: " ++ Value_Type_String field) := by
  simp [evaluateOpGet, hnil, h1, h2, h3, h4, h5, h6, h7]

/-- C7: for every field tag, in particular every structural-get tag in
[GET_CAPACITY, HASH) such as GET_DATA_HASH and GET_OUT_POINT, and every
already-evaluated operand tagged NIL, the structural accessor succeeds and returns
that operand unchanged. -/
theorem C7_get_on_nil {σ : Type} (e : Environment σ) (field : Int) (value : Value)
    (hnil : value.GetT = Value_NIL) :
    evaluateOpGet field value e = .ok value := by
  simp [evaluateOpGet, hnil]

theorem C7_get_on_nil_witness :
    evaluateOpGet Value_GET_OUT_POINT (Value.mk Value_NIL (.U 5) [mkBool true])
      emptyEnvironment = .ok (Value.mk Value_NIL (.U 5) [mkBool true]) :=
  C7_get_on_nil emptyEnvironment Value_GET_OUT_POINT _ rfl

/-- C8: for every already-evaluated operand whose tag is not NIL, GET_CAPACITY,
GET_LOCK, GET_TYPE and GET_DATA succeed if and only if the operand is tagged CELL
with exactly 4 children, and then return child 0, 1, 2 and 3; GET_CODE_HASH,
GET_HASH_TYPE and GET_ARGS succeed if and only if the operand is tagged SCRIPT with
exactly 3 children, and then return child 0, 1 and 2. Whenever an accessor, of any
field tag, does not succeed it returns an error: the out-of-range panic of
`value.GetChildren()[k]` is never reached. -/
theorem C8_get_projection {σ : Type} (e : Environment σ) (value : Value)
    (hnil : value.GetT ≠ Value_NIL) :
    (∀ field k, (field, k) ∈ [(Value_GET_CAPACITY, 0), (Value_GET_LOCK, 1),
          (Value_GET_TYPE, 2), (Value_GET_DATA, 3)] →
        ((∃ c, evaluateOpGet field value e = .ok c) ↔
          (value.GetT = Value_CELL ∧ value.GetChildren.length = 4)) ∧
        (∀ c, evaluateOpGet field value e = .ok c ↔
          (value.GetT = Value_CELL ∧ value.GetChildren.length = 4 ∧
            value.GetChildren[k]? = some c))) ∧
    (∀ field k, (field, k) ∈ [(Value_GET_CODE_HASH, 0), (Value_GET_HASH_TYPE, 1),
          (Value_GET_ARGS, 2)] →
        ((∃ c, evaluateOpGet field value e = .ok c) ↔
          (value.GetT = Value_SCRIPT ∧ value.GetChildren.length = 3)) ∧
        (∀ c, evaluateOpGet field value e = .ok c ↔
          (value.GetT = Value_SCRIPT ∧ value.GetChildren.length = 3 ∧
            value.GetChildren[k]? = some c))) ∧
    (∀ field, (¬ ∃ c, evaluateOpGet field value e = .ok c) →
        ∃ er, evaluateOpGet field value e = .err er) := by
  have p0 := project_spec value Value_CELL 4 0 (by decide) _ _ _
    (evaluateOpGet_GET_CAPACITY e value hnil)
  have p1 := project_spec value Value_CELL 4 1 (by decide) _ _ _
    (evaluateOpGet_GET_LOCK e value hnil)
  have p2 := project_spec value Value_CELL 4 2 (by decide) _ _ _
    (evaluateOpGet_GET_TYPE e value hnil)
  have p3 := project_spec value Value_CELL 4 3 (by decide) _ _ _
    (evaluateOpGet_GET_DATA e value hnil)
  have q0 := project_spec value Value_SCRIPT 3 0 (by decide) _ _ _
    (evaluateOpGet_GET_CODE_HASH e value hnil)
  have q1 := project_spec value Value_SCRIPT 3 1 (by decide) _ _ _
    (evaluateOpGet_GET_HASH_TYPE e value hnil)
  have q2 := project_spec value Value_SCRIPT 3 2 (by decide) _ _ _
    (evaluateOpGet_GET_ARGS e value hnil)
  refine ⟨?_, ?_, ?_⟩
  · intro field k hmem
    simp only [List.mem_cons, Prod.mk.injEq, List.mem_singleton, List.not_mem_nil,
      or_false] at hmem
    rcases hmem with ⟨rfl, rfl⟩ | ⟨rfl, rfl⟩ | ⟨rfl, rfl⟩ | ⟨rfl, rfl⟩
    · exact ⟨p0.2.1, p0.1⟩
    · exact ⟨p1.2.1, p1.1⟩
    · exact ⟨p2.2.1, p2.1⟩
    · exact ⟨p3.2.1, p3.1⟩
  · intro field k hmem
    simp only [List.mem_cons, Prod.mk.injEq, List.mem_singleton, List.not_mem_nil,
      or_false] at hmem
    rcases hmem with ⟨rfl, rfl⟩ | ⟨rfl, rfl⟩ | ⟨rfl, rfl⟩
    · exact ⟨q0.2.1, q0.1⟩
    · exact ⟨q1.2.1, q1.1⟩
    · exact ⟨q2.2.1, q2.1⟩
  · intro field hfail
    by_cases h1 : field = Value_GET_CAPACITY
    · subst h1
      exact p0.2.2 (fun hc => hfail (p0.2.1.2 hc))
    by_cases h2 : field = Value_GET_LOCK
    · subst h2
      exact p1.2.2 (fun hc => hfail (p1.2.1.2 hc))
    by_cases h3 : field = Value_GET_TYPE
    · subst h3
      exact p2.2.2 (fun hc => hfail (p2.2.1.2 hc))
    by_cases h4 : field = Value_GET_DATA
    · subst h4
      exact p3.2.2 (fun hc => hfail (p3.2.1.2 hc))
    by_cases h5 : field = Value_GET_CODE_HASH
    · subst h5
      exact q0.2.2 (fun hc => hfail (q0.2.1.2 hc))
    by_cases h6 : field = Value_GET_HASH_TYPE
    · subst h6
      exact q1.2.2 (fun hc => hfail (q1.2.1.2 hc))
    by_cases h7 : field = Value_GET_ARGS
    · subst h7
      exact q2.2.2 (fun hc => hfail (q2.2.1.2 hc))
    exact ⟨_, evaluateOpGet_other e field value hnil h1 h2 h3 h4 h5 h6 h7⟩

theorem C8_get_projection_witness :
    evaluateOpGet Value_GET_LOCK
        (Value.mk Value_CELL .unset [mkUint64 100, mkBool true, mkBool false, mkUint64 1])
        emptyEnvironment = .ok (mkBool true) :=
  (((C8_get_projection emptyEnvironment
      (Value.mk Value_CELL .unset [mkUint64 100, mkBool true, mkBool false, mkUint64 1])
      (by decide)).1 Value_GET_LOCK 1 (by simp)).2 (mkBool true)).2 ⟨rfl, rfl, rfl⟩

theorem reduceSpec_err {σ : Type} (f : Value) (e : Environment σ) (vs : List Value)
    (er : Error) (s : σ) : reduceSpec f e vs (.err er, s) = (.err er, s) := by
  induction vs with
  | nil => rfl
  | cons v vs ih => exact ih

theorem reduceSpec_panic {σ : Type} (f : Value) (e : Environment σ) (vs : List Value)
    (s : σ) : reduceSpec f e vs (.panic, s) = (.panic, s) := by
  induction vs with
  | nil => rfl
  | cons v vs ih => exact ih

theorem reduceSpec_cons {σ : Type} (f : Value) (e : Environment σ) (v : Value)
    (vs : List Value) (a : Value) (s : σ) :
    reduceSpec f e (v :: vs) (.ok a, s) =
      reduceSpec f e vs (evaluateValue f (prependEnvironment e [a, v]) s) := rfl

theorem reduceSpec_append {σ : Type} (f : Value) (e : Environment σ) (xs ys : List Value)
    (start : Res Value × σ) :
    reduceSpec f e (xs ++ ys) start = reduceSpec f e ys (reduceSpec f e xs start) := by
  simp [reduceSpec, List.foldl_append]

theorem reduceLoop_eq_reduceSpec {σ : Type} (f : Value) (e : Environment σ)
    (vs : List Value) (a : Value) (s : σ) :
    reduceLoop (fun currentValue value s =>
        evaluateValue f (prependEnvironment e [currentValue, value]) s) vs a s =
      reduceSpec f e vs (.ok a, s) := by
  induction vs generalizing a s with
  | nil => rfl
  | cons v vs ih =>
    rw [reduceLoop, reduceSpec_cons]
    rcases hstep : evaluateValue f (prependEnvironment e [a, v]) s with ⟨r, s1⟩
    cases r with
    | ok next => exact ih next s1
    | err er => exact (reduceSpec_err f e vs er s1).symm
    | panic => exact (reduceSpec_panic f e vs s1).symm

/-- C9: for every environment e and node REDUCE(f, init, list) whose init evaluates to
a0 and whose list resolves through the list evaluator to vs = [v1, ..., vn],
`Execute` returns the left fold of vs from a0, each step evaluating f in the closure
environment over e with bound arguments [accumulator, element]; for n = 0 the result
is a0; a failing fold step makes `Execute` return that step's error, and so does a
failing init or a failing list, with no value. -/
theorem C9_reduce_left_fold {σ : Type} (e : Environment σ) (s : σ) (p : Primitive)
    (f init list : Value) :
    (∀ a0 s1 vs s2, evaluateValue init e s = (.ok a0, s1) →
        evaluateList list e s1 = (.ok vs, s2) →
        Execute (.mk Value_REDUCE p [f, init, list]) e s = reduceSpec f e vs (.ok a0, s2) ∧
        (vs = [] → Execute (.mk Value_REDUCE p [f, init, list]) e s = (.ok a0, s2)) ∧
        (∀ pre v post a s3 er s4, vs = pre ++ v :: post →
          reduceSpec f e pre (.ok a0, s2) = (.ok a, s3) →
          evaluateValue f (prependEnvironment e [a, v]) s3 = (.err er, s4) →
          Execute (.mk Value_REDUCE p [f, init, list]) e s = (.err er, s4))) ∧
    (∀ er s1, evaluateValue init e s = (.err er, s1) →
        Execute (.mk Value_REDUCE p [f, init, list]) e s = (.err er, s1)) ∧
    (∀ a0 s1 er s2, evaluateValue init e s = (.ok a0, s1) →
        evaluateList list e s1 = (.err er, s2) →
        Execute (.mk Value_REDUCE p [f, init, list]) e s = (.err er, s2)) := by
  refine ⟨?_, ?_, ?_⟩
  · intro a0 s1 vs s2 hinit hlist
    have hmain : Execute (.mk Value_REDUCE p [f, init, list]) e s =
        reduceSpec f e vs (.ok a0, s2) := by
      rw [Execute, evaluateValue_reduce, hinit]
      simp only [hlist]
      exact reduceLoop_eq_reduceSpec f e vs a0 s2
    refine ⟨hmain, ?_, ?_⟩
    · intro hnil
      rw [hmain, hnil]
      rfl
    · intro pre v post a s3 er s4 hvs hpre hstep
      rw [hmain, hvs, reduceSpec_append, hpre, reduceSpec_cons, hstep, reduceSpec_err]
  · intro er s1 hinit
    rw [Execute, evaluateValue_reduce, hinit]
  · intro a0 s1 er s2 hinit hlist
    rw [Execute, evaluateValue_reduce, hinit]
    simp only [hlist]

theorem evaluateList_queryCells_three :
    evaluateList queryCells threeCellsEnvironment () =
      (.ok [mkUint64 1, mkUint64 2, mkUint64 3], ()) := by
  rw [evaluateList_query queryCells threeCellsEnvironment () rfl]
  rfl

theorem C9_reduce_left_fold_witness :
    Execute (.mk Value_REDUCE .unset [plusArgs, mkUint64 0, queryCells])
        threeCellsEnvironment () =
      reduceSpec plusArgs threeCellsEnvironment [mkUint64 1, mkUint64 2, mkUint64 3]
        (.ok (mkUint64 0), ()) :=
  ((C9_reduce_left_fold threeCellsEnvironment () .unset plusArgs (mkUint64 0) queryCells).1
    (mkUint64 0) () [mkUint64 1, mkUint64 2, mkUint64 3] ()
    (evaluateValue_primitive _ _ _ (by decide)) evaluateList_queryCells_three).1

theorem evaluateValue_plusArgs {σ : Type} (e : Environment σ) (s : σ) (p : Primitive)
    (a v : Value) (ha : a.GetT = Value_UINT64) (hv : v.GetT = Value_UINT64) :
    evaluateValue (.mk Value_PLUS p [mkArg 0, mkArg 1]) (prependEnvironment e [a, v]) s =
      (.ok (mkUint64 ((a.GetU + v.GetU) % 2 ^ 64)), s) := by
  have h0 : intOfUint64 (Value.mk Value_ARG (.U 0) []).GetU = 0 := by decide
  have h1 : intOfUint64 (Value.mk Value_ARG (.U 1) []).GetU = 1 := by decide
  have hop : Value_HASH ≤ (Value.mk Value_PLUS p [mkArg 0, mkArg 1]).GetT := by
    simp [Value.GetT, Value_HASH, Value_PLUS]
  rw [evaluateValue_op _ _ _ hop]
  simp only [Value.GetChildren, Value.GetT, mkArg, evaluateAstValues_cons,
    evaluateAstValues_nil, evaluateValue_arg, h0, h1]
  simp [prependEnvironment, evaluateOp, ha, hv, Value_PLUS, Value_EQUAL]

theorem reduceLoop_plus {σ : Type} (e : Environment σ) (p : Primitive) (vs : List Value)
    (hall : ∀ v ∈ vs, v.GetT = Value_UINT64) (n : Nat) (hn : n < 2 ^ 64) (s : σ) :
    reduceLoop (fun currentValue value s =>
        evaluateValue (.mk Value_PLUS p [mkArg 0, mkArg 1])
          (prependEnvironment e [currentValue, value]) s) vs (mkUint64 n) s =
      (.ok (mkUint64 ((n + (vs.map Value.GetU).sum) % 2 ^ 64)), s) := by
  induction vs generalizing n with
  | nil =>
    simp only [reduceLoop, List.map_nil, List.sum_nil, Nat.add_zero]
    rw [Nat.mod_eq_of_lt hn]
  | cons v vs ih =>
    have hv : v.GetT = Value_UINT64 := hall v (List.mem_cons_self v vs)
    have hvs : ∀ w ∈ vs, w.GetT = Value_UINT64 := fun w hw => hall w (List.mem_cons_of_mem v hw)
    rw [reduceLoop, evaluateValue_plusArgs e s p (mkUint64 n) v rfl hv]
    simp only
    rw [ih hvs _ (Nat.mod_lt _ (by decide))]
    have hu : (mkUint64 n).GetU = n := rfl
    simp only [hu, List.map_cons, List.sum_cons]
    congr 3
    omega

/-- C10: for every environment whose `QueryCell` returns, for the QUERY_CELLS node, a
possibly empty sequence of UINT64 values with payloads u1, ..., un, `Execute` of
REDUCE(PLUS(ARG(0), ARG(1)), UINT64(0), QUERY_CELLS(q)) returns
UINT64((u1 + ... + un) mod 2^64), in the host state `QueryCell` left; UINT64(0) for
the empty sequence. -/
theorem C10_reduce_plus_sums_cells {σ : Type} (e : Environment σ) (s s1 : σ)
    (p1 p2 : Primitive) (query : Value) (vs : List Value)
    (hq : query.GetT = Value_QUERY_CELLS)
    (hcells : e.QueryCell query s = (.ok vs, s1))
    (hall : ∀ v ∈ vs, v.GetT = Value_UINT64) :
    Execute (.mk Value_REDUCE p1 [.mk Value_PLUS p2 [mkArg 0, mkArg 1], mkUint64 0, query])
        e s = (.ok (mkUint64 ((vs.map Value.GetU).sum % 2 ^ 64)), s1) ∧
    (vs = [] →
      Execute (.mk Value_REDUCE p1 [.mk Value_PLUS p2 [mkArg 0, mkArg 1], mkUint64 0, query])
        e s = (.ok (mkUint64 0), s1)) := by
  have hmain : Execute
      (.mk Value_REDUCE p1 [.mk Value_PLUS p2 [mkArg 0, mkArg 1], mkUint64 0, query]) e s =
      (.ok (mkUint64 ((vs.map Value.GetU).sum % 2 ^ 64)), s1) := by
    rw [Execute, evaluateValue_reduce, evaluateValue_primitive (mkUint64 0) e s (by decide)]
    simp only [evaluateList_query query e s hq, hcells]
    rw [reduceLoop_plus e p2 vs hall 0 (by decide) s1, Nat.zero_add]
  refine ⟨hmain, ?_⟩
  intro hnil
  rw [hmain, hnil]
  rfl

theorem C10_reduce_plus_sums_cells_witness :
    Execute (.mk Value_REDUCE .unset [.mk Value_PLUS .unset [mkArg 0, mkArg 1], mkUint64 0,
          queryCells]) threeCellsEnvironment () = (.ok (mkUint64 6), ()) ∧
      Execute (.mk Value_REDUCE .unset [.mk Value_PLUS .unset [mkArg 0, mkArg 1], mkUint64 0,
          queryCells]) emptyEnvironment () = (.ok (mkUint64 0), ()) :=
  ⟨(C10_reduce_plus_sums_cells threeCellsEnvironment () () .unset .unset queryCells
      [mkUint64 1, mkUint64 2, mkUint64 3] rfl rfl (by simp [mkUint64, Value.GetT])).1,
    (C10_reduce_plus_sums_cells emptyEnvironment () () .unset .unset queryCells [] rfl rfl
      (by simp)).1⟩

/-! ## Failure branches of the evaluator -/

theorem evaluateValue_get_arity {σ : Type} (t : Int) (p : Primitive) (cs : List Value)
    (e : Environment σ) (s : σ) (h1 : Value_GET_CAPACITY ≤ t) (h2 : t < Value_HASH)
    (hlen : cs.length ≠ 1) :
    evaluateValue (.mk t p cs) e s = (.err "Invalid number of operands to GET", s) := by
  rw [evaluateValue]
  have h3 : ¬ t < Value_ARG := by
    simp only [Value_ARG, Value_GET_CAPACITY] at *
    omega
  have h4 : ¬ Value_HASH ≤ t := by
    simp only [Value_HASH] at *
    omega
  simp [isPrimitive, isOp, isGetOp, Value.GetT, Value.GetChildren, h1, h2, h3, h4, hlen]

theorem evaluateValue_apply_nil {σ : Type} (p : Primitive) (e : Environment σ) (s : σ) :
    evaluateValue (.mk Value_APPLY p []) e s = (.err "Not enough arguments for apply!", s) := by
  rw [evaluateValue]
  simp [isPrimitive, isOp, isGetOp, Value.GetT, Value.GetChildren, Value_ARG, Value_HASH,
    Value_GET_CAPACITY, Value_PARAM, Value_APPLY]

theorem evaluateValue_reduce_arity {σ : Type} (p : Primitive) (cs : List Value)
    (e : Environment σ) (s : σ) (hlen : cs.length ≠ 3) :
    evaluateValue (.mk Value_REDUCE p cs) e s =
      (.err "Invalid number of arguments for reduce!", s) := by
  rw [evaluateValue]
  simp [isPrimitive, isOp, isGetOp, Value.GetT, Value.GetChildren, Value_REDUCE, Value_ARG,
    Value_HASH, Value_GET_CAPACITY, Value_PARAM, Value_APPLY, hlen]

theorem evaluateValue_invalid {σ : Type} (t : Int) (p : Primitive) (cs : List Value)
    (e : Environment σ) (s : σ) (h1 : Value_ARG ≤ t) (h2 : t < Value_GET_CAPACITY)
    (harg : t ≠ Value_ARG) (hparam : t ≠ Value_PARAM) (happly : t ≠ Value_APPLY)
    (hreduce : t ≠ Value_REDUCE) :
    evaluateValue (.mk t p cs) e s =
      (.err ("Invalid value type: " ++ Value_Type_String t), s) := by
  rw [evaluateValue]
  have h3 : ¬ t < Value_ARG := by
    simp only [Value_ARG] at *
    omega
  have h4 : ¬ Value_HASH ≤ t := by
    simp only [Value_HASH, Value_GET_CAPACITY] at *
    omega
  have h5 : ¬ Value_GET_CAPACITY ≤ t := by
    simp only [Value_GET_CAPACITY] at *
    omega
  simp [isPrimitive, isOp, isGetOp, Value.GetT, h3, h4, h5, harg, hparam, happly, hreduce]

theorem evaluateList_map_arity {σ : Type} (p : Primitive) (cs : List Value)
    (e : Environment σ) (s : σ) (hlen : cs.length ≠ 2) :
    evaluateList (.mk Value_MAP p cs) e s = (.err "Invalid number of lists for map!", s) := by
  rw [evaluateList]
  simp [Value.GetT, Value.GetChildren, hlen]

theorem evaluateList_invalid {σ : Type} (list : Value) (e : Environment σ) (s : σ)
    (hmap : list.GetT ≠ Value_MAP) (hquery : list.GetT ≠ Value_QUERY_CELLS) :
    evaluateList list e s =
      (.err ("Invalid list type: " ++ Value_Type_String list.GetT), s) := by
  rw [evaluateList]
  simp [hmap, hquery]

/-! ## No branch of the evaluator reaches an out-of-range index -/

theorem evaluateOpGet_ne_panic {σ : Type} (e : Environment σ) (field : Int) (value : Value) :
    evaluateOpGet field value e ≠ .panic := by
  by_cases hnil : value.GetT = Value_NIL
  · simp [evaluateOpGet, hnil]
  have key : ∀ (tag : Int) (arity k : Nat), k < arity → ∀ (msg1 msg2 : Error),
      (if value.GetT ≠ tag then Res.err msg1
        else if value.GetChildren.length ≠ arity then .err msg2
        else match value.GetChildren[k]? with
          | some c => .ok c
          | none => .panic) ≠ Res.panic := by
    intro tag arity k hk msg1 msg2
    by_cases ht : value.GetT = tag
    · by_cases hl : value.GetChildren.length = arity
      · obtain ⟨c0, hc0⟩ := getElem?_of_lt value.GetChildren k (by omega)
        simp [ht, hl, hc0]
      · simp [ht, hl]
    · simp [ht]
  by_cases h1 : field = Value_GET_CAPACITY
  · subst h1
    rw [evaluateOpGet_GET_CAPACITY e value hnil]
    exact key _ 4 0 (by decide) _ _
  by_cases h2 : field = Value_GET_LOCK
  · subst h2
    rw [evaluateOpGet_GET_LOCK e value hnil]
    exact key _ 4 1 (by decide) _ _
  by_cases h3 : field = Value_GET_TYPE
  · subst h3
    rw [evaluateOpGet_GET_TYPE e value hnil]
    exact key _ 4 2 (by decide) _ _
  by_cases h4 : field = Value_GET_DATA
  · subst h4
    rw [evaluateOpGet_GET_DATA e value hnil]
    exact key _ 4 3 (by decide) _ _
  by_cases h5 : field = Value_GET_CODE_HASH
  · subst h5
    rw [evaluateOpGet_GET_CODE_HASH e value hnil]
    exact key _ 3 0 (by decide) _ _
  by_cases h6 : field = Value_GET_HASH_TYPE
  · subst h6
    rw [evaluateOpGet_GET_HASH_TYPE e value hnil]
    exact key _ 3 1 (by decide) _ _
  by_cases h7 : field = Value_GET_ARGS
  · subst h7
    rw [evaluateOpGet_GET_ARGS e value hnil]
    exact key _ 3 2 (by decide) _ _
  rw [evaluateOpGet_other e field value hnil h1 h2 h3 h4 h5 h6 h7]
  simp

theorem evaluateOp_arity {σ : Type} (op : Int) (operands : List Value) (e : Environment σ)
    (s : σ) (hop : op = Value_EQUAL ∨ op = Value_PLUS) (hlen : operands.length ≠ 2) :
    ∃ er, evaluateOp op operands e s = (.err er, s) := by
  rcases hop with rfl | rfl
  · exact ⟨"Invalid number of operands to EQUAL", by simp [evaluateOp, hlen]⟩
  · exact ⟨"Invalid number of operands to PLUS", by
      simp [evaluateOp, hlen, Value_PLUS, Value_EQUAL]⟩

theorem evaluateOp_undefined {σ : Type} (op : Int) (operands : List Value)
    (e : Environment σ) (s : σ) (h1 : op ≠ Value_EQUAL) (h2 : op ≠ Value_PLUS)
    (h3 : op ≠ Value_AND) :
    evaluateOp op operands e s = (.err ("Invalid op: " ++ Value_Type_String op), s) := by
  simp [evaluateOp, h1, h2, h3]

theorem evaluateOp_ne_panic {σ : Type} (op : Int) (operands : List Value)
    (e : Environment σ) (s : σ) : (evaluateOp op operands e s).1 ≠ .panic := by
  by_cases h1 : op = Value_EQUAL
  · subst h1
    by_cases hlen : operands.length = 2
    · match operands, hlen with
      | [x, y], _ =>
        rw [evaluateOp_equal]
        split_ifs
        · rcases e.IndexParam (intOfUint64 x.GetU) y s with ⟨_ | er, s1⟩ <;> simp
        · rcases e.IndexParam (intOfUint64 y.GetU) x s with ⟨_ | er, s1⟩ <;> simp
        · simp
    · obtain ⟨er, her⟩ := evaluateOp_arity Value_EQUAL operands e s (Or.inl rfl) hlen
      rw [her]
      simp
  by_cases h2 : op = Value_PLUS
  · subst h2
    by_cases hlen : operands.length = 2
    · match operands, hlen with
      | [x, y], _ =>
        simp only [evaluateOp, Value_PLUS, Value_EQUAL]
        by_cases hx : x.GetT ≠ Value_UINT64 ∨ y.GetT ≠ Value_UINT64
        · simp [hx]
        · simp [hx]
    · obtain ⟨er, her⟩ := evaluateOp_arity Value_PLUS operands e s (Or.inr rfl) hlen
      rw [her]
      simp
  by_cases h3 : op = Value_AND
  · subst h3
    simp only [evaluateOp, Value_AND, Value_EQUAL, Value_PLUS]
    by_cases hlen : operands.length = 0
    · simp [hlen]
    · rcases andLoop operands with er | b <;> simp [hlen]
  rw [evaluateOp_undefined op operands e s h1 h2 h3]
  simp

theorem reduceLoop_ne_panic {σ : Type} (step : Value → Value → σ → Res Value × σ)
    (hstep : ∀ a v s, (step a v s).1 ≠ .panic) (vs : List Value) (a : Value) (s : σ) :
    (reduceLoop step vs a s).1 ≠ .panic := by
  induction vs generalizing a s with
  | nil => simp [reduceLoop]
  | cons v vs ih =>
    rw [reduceLoop]
    have h := hstep a v s
    rcases hr : step a v s with ⟨r, s1⟩
    rw [hr] at h
    cases r with
    | ok next => exact ih next s1
    | err er => simp
    | panic => exact absurd rfl h

theorem mapLoop_ne_panic {σ : Type} (step : Value → σ → Res Value × σ)
    (hstep : ∀ v s, (step v s).1 ≠ .panic) (vs : List Value) (s : σ) :
    (mapLoop step vs s).1 ≠ .panic := by
  induction vs generalizing s with
  | nil => simp [mapLoop]
  | cons v vs ih =>
    rw [mapLoop]
    have h := hstep v s
    rcases hr : step v s with ⟨r, s1⟩
    rw [hr] at h
    cases r with
    | ok r1 =>
      have h2 := ih s1
      rcases hr2 : mapLoop step vs s1 with ⟨r2, s2⟩
      rw [hr2] at h2
      cases r2 with
      | ok rs => simp [hr2]
      | err er => simp [hr2]
      | panic => exact absurd rfl h2
    | err er => simp
    | panic => exact absurd rfl h

mutual
theorem evaluateValue_ne_panic {σ : Type} :
    ∀ (expr : Value) (e : Environment σ) (s : σ), (evaluateValue expr e s).1 ≠ .panic
  | .mk t p cs, e, s => by
    by_cases hprim : t < Value_ARG
    · rw [evaluateValue_primitive (.mk t p cs) e s hprim]
      simp
    by_cases hop : Value_HASH ≤ t
    · rw [evaluateValue_op (.mk t p cs) e s hop]
      have ih := evaluateAstValues_ne_panic cs e s
      simp only [Value.GetChildren, Value.GetT]
      rcases hr : evaluateAstValues cs e s with ⟨r, s1⟩
      rw [hr] at ih
      cases r with
      | ok children => exact evaluateOp_ne_panic t children e s1
      | err er => simp
      | panic => exact absurd rfl ih
    by_cases hget : Value_GET_CAPACITY ≤ t
    · match cs with
      | [] =>
        rw [evaluateValue_get_arity t p [] e s hget (not_le.1 hop) (by simp)]
        simp
      | [c] =>
        rw [evaluateValue_get t p c e s hget (not_le.1 hop)]
        have ih := evaluateValue_ne_panic c e s
        rcases hr : evaluateValue c e s with ⟨r, s1⟩
        rw [hr] at ih
        cases r with
        | ok operand => exact evaluateOpGet_ne_panic e t operand
        | err er => simp
        | panic => exact absurd rfl ih
      | _ :: _ :: _ =>
        rw [evaluateValue_get_arity t p _ e s hget (not_le.1 hop) (by simp)]
        simp
    by_cases harg : t = Value_ARG
    · subst harg
      rw [evaluateValue_arg]
      rcases e.Arg (intOfUint64 (Value.mk Value_ARG p cs).GetU) s with ⟨_ | a, s1⟩ <;> simp
    by_cases hparam : t = Value_PARAM
    · subst hparam
      rw [evaluateValue_param]
      rcases e.Param (intOfUint64 (Value.mk Value_PARAM p cs).GetU) s with ⟨_ | a, s1⟩ <;> simp
    by_cases happly : t = Value_APPLY
    · subst happly
      match cs with
      | [] =>
        rw [evaluateValue_apply_nil]
        simp
      | f :: rest =>
        rw [evaluateValue_apply]
        have ih := evaluateAstValues_ne_panic rest e s
        rcases hr : evaluateAstValues rest e s with ⟨r, s1⟩
        rw [hr] at ih
        cases r with
        | ok args => exact evaluateValue_ne_panic f (prependEnvironment e args) s1
        | err er => simp
        | panic => exact absurd rfl ih
    by_cases hreduce : t = Value_REDUCE
    · subst hreduce
      match cs with
      | [f, init, list] =>
        rw [evaluateValue_reduce]
        have ih1 := evaluateValue_ne_panic init e s
        rcases hr : evaluateValue init e s with ⟨r, s1⟩
        rw [hr] at ih1
        cases r with
        | ok a0 =>
          have ih2 := evaluateList_ne_panic list e s1
          simp only
          rcases hr2 : evaluateList list e s1 with ⟨r2, s2⟩
          rw [hr2] at ih2
          cases r2 with
          | ok vs =>
            exact reduceLoop_ne_panic _
              (fun a v s3 => evaluateValue_ne_panic f (prependEnvironment e [a, v]) s3) vs a0 s2
          | err er => simp
          | panic => exact absurd rfl ih2
        | err er => simp
        | panic => exact absurd rfl ih1
      | [] =>
        rw [evaluateValue_reduce_arity p _ e s (by simp)]
        simp
      | [_] =>
        rw [evaluateValue_reduce_arity p _ e s (by simp)]
        simp
      | [_, _] =>
        rw [evaluateValue_reduce_arity p _ e s (by simp)]
        simp
      | _ :: _ :: _ :: _ :: _ =>
        rw [evaluateValue_reduce_arity p _ e s (by simp)]
        simp
    rw [evaluateValue_invalid t p cs e s (not_lt.1 hprim) (not_le.1 hget) harg hparam happly
      hreduce]
    simp
theorem evaluateAstValues_ne_panic {σ : Type} :
    ∀ (values : List Value) (e : Environment σ) (s : σ),
      (evaluateAstValues values e s).1 ≠ .panic
  | [], e, s => by
    rw [evaluateAstValues_nil]
    simp
  | v :: vs, e, s => by
    rw [evaluateAstValues_cons]
    have ih1 := evaluateValue_ne_panic v e s
    rcases hr : evaluateValue v e s with ⟨r, s1⟩
    rw [hr] at ih1
    cases r with
    | ok a =>
      have ih2 := evaluateAstValues_ne_panic vs e s1
      simp only
      rcases hr2 : evaluateAstValues vs e s1 with ⟨r2, s2⟩
      rw [hr2] at ih2
      cases r2 with
      | ok as => simp
      | err er => simp
      | panic => exact absurd rfl ih2
    | err er => simp
    | panic => exact absurd rfl ih1
theorem evaluateList_ne_panic {σ : Type} :
    ∀ (list : Value) (e : Environment σ) (s : σ), (evaluateList list e s).1 ≠ .panic
  | .mk t p cs, e, s => by
    by_cases hmap : t = Value_MAP
    · subst hmap
      match cs with
      | [f, inner] =>
        rw [evaluateList_map]
        have ih := evaluateList_ne_panic inner e s
        rcases hr : evaluateList inner e s with ⟨r, s1⟩
        rw [hr] at ih
        cases r with
        | ok vs =>
          exact mapLoop_ne_panic _
            (fun v s3 => evaluateValue_ne_panic f (prependEnvironment e [v]) s3) vs s1
        | err er => simp
        | panic => exact absurd rfl ih
      | [] =>
        rw [evaluateList_map_arity p _ e s (by simp)]
        simp
      | [_] =>
        rw [evaluateList_map_arity p _ e s (by simp)]
        simp
      | _ :: _ :: _ :: _ =>
        rw [evaluateList_map_arity p _ e s (by simp)]
        simp
    by_cases hquery : t = Value_QUERY_CELLS
    · subst hquery
      rw [evaluateList_query (.mk Value_QUERY_CELLS p cs) e s rfl]
      rcases e.QueryCell (Value.mk Value_QUERY_CELLS p cs) s with ⟨_ | _, s1⟩ <;> simp
    rw [evaluateList_invalid (.mk t p cs) e s hmap hquery]
    simp
end

/-! ## Operand lists -/

theorem evaluateAstValues_ok_iff {σ : Type} (e : Environment σ) (values : List Value)
    (s : σ) (vs : List Value) (s' : σ) :
    evaluateAstValues values e s = (.ok vs, s') ↔ evalsInOrder e values s vs s' := by
  induction values generalizing s vs with
  | nil =>
    rw [evaluateAstValues_nil]
    simp only [evalsInOrder, Prod.mk.injEq, Res.ok.injEq]
    constructor
    · rintro ⟨h1, h2⟩
      exact ⟨h1.symm, h2.symm⟩
    · rintro ⟨h1, h2⟩
      exact ⟨h1.symm, h2.symm⟩
  | cons a rest ih =>
    rw [evaluateAstValues_cons]
    simp only [evalsInOrder]
    rcases hr : evaluateValue a e s with ⟨r, s1⟩
    cases r with
    | ok v =>
      simp only
      rcases hr2 : evaluateAstValues rest e s1 with ⟨r2, s2⟩
      cases r2 with
      | ok ws =>
        simp only [Prod.mk.injEq, Res.ok.injEq]
        constructor
        · rintro ⟨h1, h2⟩
          exact ⟨v, s1, ws, ⟨rfl, rfl⟩, h1.symm, (ih s1 ws).1 (by rw [hr2, h2])⟩
        · rintro ⟨v', s1', vs', ⟨h1, h2⟩, h3, h4⟩
          subst h1 h2 h3
          have := (ih s1 vs').2 h4
          rw [hr2] at this
          simp only [Prod.mk.injEq, Res.ok.injEq] at this
          exact ⟨by rw [this.1], this.2⟩
      | err er =>
        simp only [Prod.mk.injEq]
        constructor
        · rintro ⟨h1, _⟩
          cases h1
        · rintro ⟨v', s1', vs', ⟨_, h2⟩, _, h4⟩
          subst h2
          have := (ih s1 vs').2 h4
          rw [hr2] at this
          simp at this
      | panic =>
        simp only [Prod.mk.injEq]
        constructor
        · rintro ⟨h1, _⟩
          cases h1
        · rintro ⟨v', s1', vs', ⟨_, h2⟩, _, h4⟩
          subst h2
          have := (ih s1 vs').2 h4
          rw [hr2] at this
          simp at this
    | err er => simp
    | panic => simp

theorem evalsInOrder_length {σ : Type} (e : Environment σ) (values : List Value) (s : σ)
    (vs : List Value) (s' : σ) (h : evalsInOrder e values s vs s') :
    vs.length = values.length := by
  induction values generalizing s vs with
  | nil =>
    obtain ⟨h1, _⟩ := h
    rw [h1]
  | cons a rest ih =>
    obtain ⟨v, s1, vs', _, h2, h3⟩ := h
    rw [h2, List.length_cons, List.length_cons, ih s1 vs' h3]

theorem evaluateAstValues_first_error {σ : Type} (e : Environment σ)
    (pre : List Value) (a : Value) (post : List Value) (s : σ) (vs : List Value) (s1 : σ)
    (er : Error) (s2 : σ) (hpre : evalsInOrder e pre s vs s1)
    (ha : evaluateValue a e s1 = (.err er, s2)) :
    evaluateAstValues (pre ++ a :: post) e s = (.err er, s2) := by
  induction pre generalizing s vs with
  | nil =>
    obtain ⟨_, h2⟩ := hpre
    subst h2
    rw [List.nil_append, evaluateAstValues_cons, ha]
  | cons b rest ih =>
    obtain ⟨v, s0, vs', h1, _, h3⟩ := hpre
    rw [List.cons_append, evaluateAstValues_cons, h1]
    simp only [ih s0 vs' h3]

theorem evaluateAstValues_ok_or_err {σ : Type} (e : Environment σ) (values : List Value)
    (s : σ) :
    (∃ vs s1, evaluateAstValues values e s = (.ok vs, s1) ∧ vs.length = values.length) ∨
      ∃ er s1, evaluateAstValues values e s = (.err er, s1) := by
  have hnp := evaluateAstValues_ne_panic values e s
  rcases hr : evaluateAstValues values e s with ⟨r, s1⟩
  rw [hr] at hnp
  cases r with
  | ok vs =>
    exact Or.inl ⟨vs, s1, rfl,
      evalsInOrder_length e values s vs s1 ((evaluateAstValues_ok_iff e values s vs s1).1 hr)⟩
  | err er => exact Or.inr ⟨er, s1, rfl⟩
  | panic => exact absurd rfl hnp

/-- C11: for every environment e and node APPLY(f, a1, ..., an), n ≥ 0, whose
arguments evaluate in e, left to right, to v1, ..., vn, `Execute` returns exactly the
result of evaluating f in the closure environment over e with bound arguments
[v1, ..., vn], started in the host state the arguments left; in that closure
`Arg(i)` is v_(i+1) for i < n and `Param`, `IndexParam`, `QueryCell` are those of e.
When an argument fails after the ones before it succeeded, `Execute` returns that
argument's error in the host state that argument left (f is not evaluated).
APPLY(PLUS(ARG(0), ARG(1)), UINT64(3), UINT64(4)) = UINT64(7). -/
theorem C11_apply_closure {σ : Type} (e : Environment σ) (s : σ) (p : Primitive)
    (f : Value) (args : List Value) :
    (∀ vs s1, evalsInOrder e args s vs s1 →
        Execute (.mk Value_APPLY p (f :: args)) e s =
          evaluateValue f (prependEnvironment e vs) s1 ∧
        vs.length = args.length ∧
        (∀ (i : Nat) (t : σ), i < vs.length →
          (prependEnvironment e vs).Arg (i : Int) t = (vs[i]?, t)) ∧
        (prependEnvironment e vs).Param = e.Param ∧
        (prependEnvironment e vs).IndexParam = e.IndexParam ∧
        (prependEnvironment e vs).QueryCell = e.QueryCell) ∧
    (∀ pre a post vs s1 er s2, args = pre ++ a :: post → evalsInOrder e pre s vs s1 →
        evaluateValue a e s1 = (.err er, s2) →
        Execute (.mk Value_APPLY p (f :: args)) e s = (.err er, s2)) ∧
    Execute applyPlus34 e s = (.ok (mkUint64 7), s) := by
  refine ⟨?_, ?_, ?_⟩
  · intro vs s1 hargs
    refine ⟨?_, evalsInOrder_length e args s vs s1 hargs, ?_, rfl, rfl, rfl⟩
    · rw [Execute, evaluateValue_apply, (evaluateAstValues_ok_iff e args s vs s1).2 hargs]
    · intro i t hi
      have h1 : (0 : Int) ≤ (i : Int) ∧ (i : Int) < (vs.length : Int) :=
        ⟨Int.ofNat_nonneg i, by exact_mod_cast hi⟩
      simp only [prependEnvironment, if_pos h1, Int.toNat_ofNat]
  · intro pre a post vs s1 er s2 hargs hpre ha
    rw [Execute, evaluateValue_apply, hargs,
      evaluateAstValues_first_error e pre a post s vs s1 er s2 hpre ha]
  · have h3 : evaluateValue (mkUint64 3) e = fun t => (.ok (mkUint64 3), t) := by
      funext t
      exact evaluateValue_primitive _ e t (by decide)
    have h4 : evaluateValue (mkUint64 4) e = fun t => (.ok (mkUint64 4), t) := by
      funext t
      exact evaluateValue_primitive _ e t (by decide)
    rw [Execute, applyPlus34, evaluateValue_apply]
    simp only [evaluateAstValues_cons, evaluateAstValues_nil, h3, h4]
    rw [plusArgs, evaluateValue_plusArgs e s .unset (mkUint64 3) (mkUint64 4) rfl rfl]
    rfl

theorem C11_apply_closure_witness :
    Execute (.mk Value_APPLY .unset [mkArg 1, mkUint64 3, mkBool true]) emptyEnvironment () =
      evaluateValue (mkArg 1) (prependEnvironment emptyEnvironment [mkUint64 3, mkBool true])
        () :=
  ((C11_apply_closure emptyEnvironment () .unset (mkArg 1) [mkUint64 3, mkBool true]).1
    [mkUint64 3, mkBool true] ()
    ⟨mkUint64 3, (), [mkBool true], evaluateValue_primitive _ _ _ (by decide), rfl,
      mkBool true, (), [], evaluateValue_primitive _ _ _ (by decide), rfl, rfl, rfl⟩).1

/-! ## MAP -/

theorem mapSpec_err {σ : Type} (f : Value) (e : Environment σ) (vs : List Value)
    (er : Error) (s : σ) : mapSpec f e vs (.err er, s) = (.err er, s) := by
  induction vs with
  | nil => rfl
  | cons v vs ih => exact ih

theorem mapSpec_panic {σ : Type} (f : Value) (e : Environment σ) (vs : List Value)
    (s : σ) : mapSpec f e vs (.panic, s) = (.panic, s) := by
  induction vs with
  | nil => rfl
  | cons v vs ih => exact ih

theorem mapSpec_append {σ : Type} (f : Value) (e : Environment σ) (xs ys : List Value)
    (start : Res (List Value) × σ) :
    mapSpec f e (xs ++ ys) start = mapSpec f e ys (mapSpec f e xs start) := by
  simp [mapSpec, List.foldl_append]

theorem mapSpec_cons {σ : Type} (f : Value) (e : Environment σ) (v : Value)
    (vs : List Value) (rs : List Value) (s : σ) :
    mapSpec f e (v :: vs) (.ok rs, s) =
      mapSpec f e vs
        (match evaluateValue f (prependEnvironment e [v]) s with
          | (.ok r, s1) => (.ok (rs ++ [r]), s1)
          | (.err er, s1) => (.err er, s1)
          | (.panic, s1) => (.panic, s1)) := rfl

/-- The fold `mapSpec` started with the results `acc` already collected puts `acc` in
front of what the loop of `evaluateList` returns. -/
theorem mapSpec_eq_mapLoop {σ : Type} (f : Value) (e : Environment σ) (vs : List Value)
    (acc : List Value) (s : σ) :
    mapSpec f e vs (.ok acc, s) =
      match mapLoop (fun value s => evaluateValue f (prependEnvironment e [value]) s) vs s with
      | (.ok rs, s1) => (.ok (acc ++ rs), s1)
      | (.err er, s1) => (.err er, s1)
      | (.panic, s1) => (.panic, s1) := by
  induction vs generalizing acc s with
  | nil => simp [mapSpec, mapLoop]
  | cons v vs ih =>
    rw [mapSpec_cons, mapLoop]
    rcases hr : evaluateValue f (prependEnvironment e [v]) s with ⟨r, s1⟩
    cases r with
    | ok r1 =>
      simp only
      rw [ih (acc ++ [r1]) s1]
      rcases mapLoop (fun value s => evaluateValue f (prependEnvironment e [value]) s) vs s1
        with ⟨q, s2⟩
      cases q with
      | ok qs => simp
      | err er => rfl
      | panic => rfl
    | err er => exact mapSpec_err f e vs er s1
    | panic => exact mapSpec_panic f e vs s1

theorem mapLoop_eq_mapSpec {σ : Type} (f : Value) (e : Environment σ) (vs : List Value)
    (s : σ) :
    mapLoop (fun value s => evaluateValue f (prependEnvironment e [value]) s) vs s =
      mapSpec f e vs (.ok [], s) := by
  rw [mapSpec_eq_mapLoop]
  rcases mapLoop (fun value s => evaluateValue f (prependEnvironment e [value]) s) vs s
    with ⟨q, s2⟩
  cases q with
  | ok qs => simp
  | err er => rfl
  | panic => rfl

theorem mapSpec_length {σ : Type} (f : Value) (e : Environment σ) (vs : List Value)
    (acc : List Value) (s : σ) (rs : List Value) (s' : σ)
    (h : mapSpec f e vs (.ok acc, s) = (.ok rs, s')) :
    rs.length = acc.length + vs.length := by
  induction vs generalizing acc s with
  | nil =>
    have h1 : (Res.ok acc, s) = (Res.ok rs, s') := h
    simp only [Prod.mk.injEq, Res.ok.injEq] at h1
    simp [h1.1]
  | cons v vs ih =>
    rw [mapSpec_cons] at h
    rcases hr : evaluateValue f (prependEnvironment e [v]) s with ⟨r, s1⟩
    rw [hr] at h
    cases r with
    | ok r1 =>
      have := ih (acc ++ [r1]) s1 h
      rw [this, List.length_append, List.length_cons, List.length_cons, List.length_nil]
      omega
    | err er =>
      simp only at h
      rw [mapSpec_err] at h
      cases h
    | panic =>
      simp only at h
      rw [mapSpec_panic] at h
      cases h

/-- Once `acc` is collected it stays the front of the result of `mapSpec`. -/
theorem mapSpec_prefix {σ : Type} (f : Value) (e : Environment σ) (vs : List Value)
    (acc : List Value) (s : σ) (rs : List Value) (s' : σ)
    (h : mapSpec f e vs (.ok acc, s) = (.ok rs, s')) :
    ∃ tail, rs = acc ++ tail := by
  rw [mapSpec_eq_mapLoop] at h
  rcases hq : mapLoop (fun value s => evaluateValue f (prependEnvironment e [value]) s) vs s
    with ⟨q, s2⟩
  rw [hq] at h
  cases q with
  | ok qs =>
    simp only [Prod.mk.injEq, Res.ok.injEq] at h
    exact ⟨qs, h.1.symm⟩
  | err er => cases h
  | panic => cases h

theorem evaluateList_mapCapacity :
    evaluateList mapCapacity twoCellsEnvironment () =
      (.ok [mkUint64 10, mkUint64 20], ()) := by
  have hget : ∀ (c : Nat) (rest : List Value),
      evaluateValue (.mk Value_GET_CAPACITY .unset [mkArg 0])
          (prependEnvironment twoCellsEnvironment (mkCell c :: rest)) () =
        (.ok (mkUint64 c), ()) := by
    intro c rest
    have h0 : intOfUint64 (Value.mk Value_ARG (.U 0) []).GetU = 0 := by decide
    rw [evaluateValue_get _ _ _ _ _ (by decide) (by decide), mkArg, evaluateValue_arg, h0]
    simp only [prependEnvironment]
    rw [if_pos ⟨le_refl _, by simp⟩]
    simp only [Int.toNat_zero, List.getElem?_cons_zero, mkCell]
    rw [(evaluateOpGet_cell _ _ _ _ _ _).1]
  rw [mapCapacity, evaluateList_map,
    evaluateList_query queryCells twoCellsEnvironment () rfl]
  simp only [twoCellsEnvironment, mapLoop]
  have h1 := hget 10 []
  have h2 := hget 20 []
  simp only [twoCellsEnvironment] at h1 h2
  simp only [h1, h2]

/-- C12: for every environment e and node MAP(f, inner) whose inner list resolves
through the list evaluator to vs = [v1, ..., vn], the list evaluator returns the
element-wise map of vs, each element v_i replaced by the result of evaluating f in
the closure environment over e with bound arguments [v_i], in the same order; a
successful result has exactly n values, its i-th value being the result for v_i; when
evaluation fails for an element, the whole MAP fails with that error.
MAP(GET_CAPACITY(ARG(0)), QUERY_CELLS(q)) over two 4-child CELL values of capacities
10 and 20 gives [UINT64(10), UINT64(20)]. -/
theorem C12_map_elementwise {σ : Type} (e : Environment σ) (s : σ) (p : Primitive)
    (f inner : Value) :
    (∀ vs s1, evaluateList inner e s = (.ok vs, s1) →
        evaluateList (.mk Value_MAP p [f, inner]) e s = mapSpec f e vs (.ok [], s1) ∧
        (∀ rs s2, evaluateList (.mk Value_MAP p [f, inner]) e s = (.ok rs, s2) →
          rs.length = vs.length) ∧
        (∀ pre v post rpre s3 r s4 rs s2, vs = pre ++ v :: post →
          mapSpec f e pre (.ok [], s1) = (.ok rpre, s3) →
          evaluateValue f (prependEnvironment e [v]) s3 = (.ok r, s4) →
          evaluateList (.mk Value_MAP p [f, inner]) e s = (.ok rs, s2) →
          rs[pre.length]? = some r) ∧
        (∀ pre v post rpre s3 er s4, vs = pre ++ v :: post →
          mapSpec f e pre (.ok [], s1) = (.ok rpre, s3) →
          evaluateValue f (prependEnvironment e [v]) s3 = (.err er, s4) →
          evaluateList (.mk Value_MAP p [f, inner]) e s = (.err er, s4))) ∧
    evaluateList mapCapacity twoCellsEnvironment () =
      (.ok [mkUint64 10, mkUint64 20], ()) := by
  refine ⟨?_, evaluateList_mapCapacity⟩
  intro vs s1 hinner
  have hmain : evaluateList (.mk Value_MAP p [f, inner]) e s =
      mapSpec f e vs (.ok [], s1) := by
    rw [evaluateList_map, hinner]
    exact mapLoop_eq_mapSpec f e vs s1
  refine ⟨hmain, ?_, ?_, ?_⟩
  · intro rs s2 hrs
    rw [hmain] at hrs
    have := mapSpec_length f e vs [] s1 rs s2 hrs
    simpa using this
  · intro pre v post rpre s3 r s4 rs s2 hvs hpre hv hrs
    rw [hmain, hvs, mapSpec_append, hpre, mapSpec_cons, hv] at hrs
    obtain ⟨tail, htail⟩ := mapSpec_prefix f e post (rpre ++ [r]) s4 rs s2 hrs
    have hlen : rpre.length = pre.length := by
      have := mapSpec_length f e pre [] s1 rpre s3 hpre
      simpa using this
    rw [htail, ← hlen, List.getElem?_append_left (by simp), List.getElem?_concat_length]
  · intro pre v post rpre s3 er s4 hvs hpre hv
    rw [hmain, hvs, mapSpec_append, hpre, mapSpec_cons, hv]
    exact mapSpec_err f e post er s4

theorem C12_map_elementwise_witness :
    evaluateList mapCapacity twoCellsEnvironment () =
      mapSpec (.mk Value_GET_CAPACITY .unset [mkArg 0]) twoCellsEnvironment
        [mkCell 10, mkCell 20] (.ok [], ()) :=
  ((C12_map_elementwise twoCellsEnvironment () .unset
    (.mk Value_GET_CAPACITY .unset [mkArg 0]) queryCells).1 [mkCell 10, mkCell 20] ()
    (by rw [evaluateList_query queryCells twoCellsEnvironment () rfl]; rfl)).1

/-- C13: for every environment e and index payload u, `Execute` of ARG(u) makes the
single host call `Arg(int(u))` and returns its value unchanged when there is one,
and fails when there is none; `Execute` of PARAM(u) does the same with
`Param(int(u))`. The value is returned as it is, whatever node it is: no further host
call is made. The index `int(u)` is u itself for u < 2^63. -/
theorem C13_arg_param_lookup {σ : Type} (e : Environment σ) (s : σ) (log : List Call)
    (u : Nat) (cs : List Value) :
    (∀ v s1, e.Arg (intOfUint64 u) s = (some v, s1) →
        Execute (.mk Value_ARG (.U u) cs) e s = (.ok v, s1)) ∧
    (∀ s1, e.Arg (intOfUint64 u) s = (none, s1) →
        ∃ er, Execute (.mk Value_ARG (.U u) cs) e s = (.err er, s1)) ∧
    (∀ v s1, e.Param (intOfUint64 u) s = (some v, s1) →
        Execute (.mk Value_PARAM (.U u) cs) e s = (.ok v, s1)) ∧
    (∀ s1, e.Param (intOfUint64 u) s = (none, s1) →
        ∃ er, Execute (.mk Value_PARAM (.U u) cs) e s = (.err er, s1)) ∧
    (Execute (.mk Value_ARG (.U u) cs) e.traced (s, log)).2.2 =
      log ++ [Call.Arg (intOfUint64 u)] ∧
    (Execute (.mk Value_PARAM (.U u) cs) e.traced (s, log)).2.2 =
      log ++ [Call.Param (intOfUint64 u)] ∧
    (u < 2 ^ 63 → intOfUint64 u = (u : Int)) := by
  have hA : (Value.mk Value_ARG (.U u) cs).GetU = u := rfl
  have hP : (Value.mk Value_PARAM (.U u) cs).GetU = u := rfl
  refine ⟨?_, ?_, ?_, ?_, ?_, ?_, intOfUint64_of_lt u⟩
  · intro v s1 h
    rw [Execute, evaluateValue_arg, hA, h]
  · intro s1 h
    rw [Execute, evaluateValue_arg, hA, h]
    exact ⟨_, rfl⟩
  · intro v s1 h
    rw [Execute, evaluateValue_param, hP, h]
  · intro s1 h
    rw [Execute, evaluateValue_param, hP, h]
    exact ⟨_, rfl⟩
  · rw [Execute, evaluateValue_arg, hA]
    simp only [Environment.traced]
    rcases e.Arg (intOfUint64 u) s with ⟨_ | v, s1⟩ <;> rfl
  · rw [Execute, evaluateValue_param, hP]
    simp only [Environment.traced]
    rcases e.Param (intOfUint64 u) s with ⟨_ | v, s1⟩ <;> rfl

theorem C13_arg_param_lookup_witness :
    Execute (.mk Value_ARG (.U 0) []) boundEnvironment () = (.ok plusArgs, ()) ∧
      ∃ er, Execute (.mk Value_PARAM (.U 5) []) boundEnvironment () = (.err er, ()) :=
  ⟨(C13_arg_param_lookup boundEnvironment () [] 0 []).1 plusArgs () rfl,
    (C13_arg_param_lookup boundEnvironment () [] 5 []).2.2.2.1 () rfl⟩

/-- C14 fails as stated: on a host whose `QueryCell` answers with the node it is
handed, the list evaluator on QUERY_CELLS(q) returns the QUERY_CELLS node itself,
which is not what `QueryCell` returns on the operand q: `QueryCell` was called on the
whole node, as the call log shows. -/
theorem C14_counterexample :
    evaluateList queryCells echoEnvironment () = (.ok [queryCells], ()) ∧
      echoEnvironment.QueryCell (.mk Value_BYTES (.Raw []) []) () =
        (.ok [.mk Value_BYTES (.Raw []) []], ()) ∧
      queryCells ≠ .mk Value_BYTES (.Raw []) [] ∧
      (evaluateList queryCells echoEnvironment.traced ((), [])).2.2 =
        [Call.QueryCell queryCells] := by
  refine ⟨?_, rfl, ?_, ?_⟩
  · rw [evaluateList_query queryCells echoEnvironment () rfl]
    rfl
  · simp [queryCells, Value_QUERY_CELLS, Value_BYTES]
  · rw [evaluateList_query queryCells echoEnvironment.traced ((), []) rfl]
    rfl

/-- C14, amended: for every environment e and every node tagged QUERY_CELLS, whatever
its children, the list evaluator's result is exactly what `e.QueryCell` returns when
applied to that QUERY_CELLS node itself: the same ordered sequence on success, the
same error on failure; that call is the only host call, so nothing is evaluated
beforehand. -/
theorem C14_query_cells_delegates {σ : Type} (e : Environment σ) (s : σ) (log : List Call)
    (p : Primitive) (cs : List Value) :
    (∀ cells s1, e.QueryCell (.mk Value_QUERY_CELLS p cs) s = (.ok cells, s1) →
        evaluateList (.mk Value_QUERY_CELLS p cs) e s = (.ok cells, s1)) ∧
    (∀ er s1, e.QueryCell (.mk Value_QUERY_CELLS p cs) s = (.error er, s1) →
        evaluateList (.mk Value_QUERY_CELLS p cs) e s = (.err er, s1)) ∧
    (evaluateList (.mk Value_QUERY_CELLS p cs) e.traced (s, log)).2.2 =
      log ++ [Call.QueryCell (.mk Value_QUERY_CELLS p cs)] := by
  refine ⟨?_, ?_, ?_⟩
  · intro cells s1 h
    rw [evaluateList_query (.mk Value_QUERY_CELLS p cs) e s rfl, h]
  · intro er s1 h
    rw [evaluateList_query (.mk Value_QUERY_CELLS p cs) e s rfl, h]
  · rw [evaluateList_query (.mk Value_QUERY_CELLS p cs) e.traced (s, log) rfl]
    simp only [Environment.traced]
    rcases e.QueryCell (.mk Value_QUERY_CELLS p cs) s with ⟨_ | _, s1⟩ <;> rfl

theorem C14_query_cells_delegates_witness :
    evaluateList queryCells threeCellsEnvironment () =
      (.ok [mkUint64 1, mkUint64 2, mkUint64 3], ()) :=
  (C14_query_cells_delegates threeCellsEnvironment () [] .unset
    [.mk Value_BYTES (.Raw []) []]).1 [mkUint64 1, mkUint64 2, mkUint64 3] () rfl

/-- C15: for every environment and node whose tag is at or above HASH (an operator,
defined or not), the children are evaluated left to right before the operator is
applied: when all of them succeed the operator is applied to their values in the host
state they left, and when a child fails after the ones before it succeeded, `Execute`
fails with that child's error, whatever the operator and the children after it.
AND(BOOL(false), ARG(i)) with no argument bound at i fails. -/
theorem C15_operator_children_first {σ : Type} (e : Environment σ) (s : σ) (t : Int)
    (p : Primitive) (ht : Value_HASH ≤ t) :
    (∀ cs vs s1, evalsInOrder e cs s vs s1 →
        Execute (.mk t p cs) e s = evaluateOp t vs e s1) ∧
    (∀ pre a post vs s1 er s2, evalsInOrder e pre s vs s1 →
        evaluateValue a e s1 = (.err er, s2) →
        Execute (.mk t p (pre ++ a :: post)) e s = (.err er, s2)) ∧
    (∀ (i : Nat) s1, e.Arg (intOfUint64 i) s = (none, s1) →
        ∃ er, Execute (.mk Value_AND .unset [mkBool false, mkArg i]) e s = (.err er, s1)) := by
  refine ⟨?_, ?_, ?_⟩
  · intro cs vs s1 hcs
    rw [Execute, evaluateValue_op (.mk t p cs) e s ht]
    simp only [Value.GetChildren, Value.GetT]
    rw [(evaluateAstValues_ok_iff e cs s vs s1).2 hcs]
  · intro pre a post vs s1 er s2 hpre ha
    rw [Execute, evaluateValue_op (.mk t p (pre ++ a :: post)) e s ht]
    simp only [Value.GetChildren]
    rw [evaluateAstValues_first_error e pre a post s vs s1 er s2 hpre ha]
  · intro i s1 hi
    have hb : evaluateValue (mkBool false) e s = (.ok (mkBool false), s) :=
      evaluateValue_primitive _ e s (by decide)
    have hu : (Value.mk Value_ARG (.U i) []).GetU = i := rfl
    refine ⟨"Cannot find arg index " ++ toString (intOfUint64 i) ++ "!", ?_⟩
    have hand : Value_HASH ≤ (Value.mk Value_AND .unset [mkBool false, mkArg i]).GetT := by
      simp [Value.GetT, Value_HASH, Value_AND]
    rw [Execute, evaluateValue_op (.mk Value_AND .unset [mkBool false, mkArg i]) e s hand]
    simp only [Value.GetChildren, evaluateAstValues_cons, hb, mkArg, evaluateValue_arg, hu, hi]

theorem C15_operator_children_first_witness :
    Execute (.mk Value_PLUS .unset ([mkUint64 1] ++ mkArg 0 :: [mkParam 0]))
        emptyEnvironment () =
      (.err ("Cannot find arg index " ++ toString (intOfUint64 0) ++ "!"), ()) :=
  (C15_operator_children_first emptyEnvironment () Value_PLUS .unset (by decide)).2.1
    [mkUint64 1] (mkArg 0) [mkParam 0] [mkUint64 1] () _ ()
    ⟨mkUint64 1, (), [], evaluateValue_primitive _ _ _ (by decide), rfl, rfl, rfl⟩
    (by rw [mkArg, evaluateValue_arg]; rfl)

/-- C16: for every environment, `Execute` of a node whose tag has no evaluation rule
in value context returns an error and never a value. For the list-only tags LIST,
QUERY_CELLS, MAP, FILTER and the record tags OUT_POINT, CELL_DEP, SCRIPT, CELL,
TRANSACTION the error is immediate (host untouched), so a record literal placed as
the child of a structural-get node makes the evaluation fail; for the undefined
operators HASH, NOT, OR, XOR, LESS, LEN, SLICE, INDEX, MINUS the result is an error
whatever the children are. -/
theorem C16_unsupported_nodes_fail {σ : Type} (e : Environment σ) (s : σ) (p : Primitive)
    (cs : List Value) :
    (∀ t, t ∈ [Value_LIST, Value_QUERY_CELLS, Value_MAP, Value_FILTER, Value_OUT_POINT,
          Value_CELL_DEP, Value_SCRIPT, Value_CELL, Value_TRANSACTION] →
        Execute (.mk t p cs) e s = (.err ("Invalid value type: " ++ Value_Type_String t), s) ∧
        ∀ field q, Value_GET_CAPACITY ≤ field → field < Value_HASH →
          Execute (.mk field q [.mk t p cs]) e s =
            (.err ("Invalid value type: " ++ Value_Type_String t), s)) ∧
    (∀ t, t ∈ [Value_HASH, Value_NOT, Value_OR, Value_XOR, Value_LESS, Value_LEN,
          Value_SLICE, Value_INDEX, Value_MINUS] →
        ∃ er s1, Execute (.mk t p cs) e s = (.err er, s1)) := by
  refine ⟨?_, ?_⟩
  · intro t ht
    have hinv : ∀ (e1 : Environment σ) (s1 : σ), evaluateValue (.mk t p cs) e1 s1 =
        (.err ("Invalid value type: " ++ Value_Type_String t), s1) := by
      intro e1 s1
      simp only [List.mem_cons, List.mem_singleton, List.not_mem_nil, or_false] at ht
      rcases ht with rfl | rfl | rfl | rfl | rfl | rfl | rfl | rfl | rfl <;>
        exact evaluateValue_invalid _ p cs e1 s1 (by decide) (by decide) (by decide)
          (by decide) (by decide) (by decide)
    refine ⟨hinv e s, ?_⟩
    intro field q h1 h2
    rw [Execute, evaluateValue_get field q _ e s h1 h2, hinv e s]
  · intro t ht
    have hop : Value_HASH ≤ (Value.mk t p cs).GetT ∧ t ≠ Value_EQUAL ∧ t ≠ Value_PLUS ∧
        t ≠ Value_AND := by
      simp only [List.mem_cons, List.mem_singleton, List.not_mem_nil, or_false] at ht
      rcases ht with rfl | rfl | rfl | rfl | rfl | rfl | rfl | rfl | rfl <;>
        exact ⟨by simp only [Value.GetT]; decide, by decide, by decide, by decide⟩
    rw [Execute, evaluateValue_op (.mk t p cs) e s hop.1]
    simp only [Value.GetChildren, Value.GetT]
    rcases evaluateAstValues_ok_or_err e cs s with ⟨vs, s1, h, _⟩ | ⟨er, s1, h⟩
    · rw [h]
      exact ⟨_, s1, evaluateOp_undefined t vs e s1 hop.2.1 hop.2.2.1 hop.2.2.2⟩
    · rw [h]
      exact ⟨er, s1, rfl⟩

theorem C16_unsupported_nodes_fail_witness :
    Execute (.mk Value_GET_CAPACITY .unset [mkCell 100]) emptyEnvironment () =
      (.err ("Invalid value type: " ++ Value_Type_String Value_CELL), ()) :=
  ((C16_unsupported_nodes_fail emptyEnvironment () .unset
    [mkUint64 100, .mk Value_NIL .unset [], .mk Value_NIL .unset [],
      .mk Value_BYTES (.Raw []) []]).1 Value_CELL (by simp)).2
    Value_GET_CAPACITY .unset (by decide) (by decide)

/-- C17: for every environment, a node whose child count violates its tag's fixed
arity fails with an error: a structural-get node (tag in [GET_CAPACITY, HASH)) with a
number of children other than 1, an APPLY node with no child, a REDUCE node with a
number of children other than 3, a MAP node in the list evaluator with a number of
children other than 2 (these four before any host call), and an EQUAL or PLUS node
with a number of children other than 2. No evaluation, of any node, ends in the
out-of-range panic of indexing a missing child. -/
theorem C17_arity_violations_fail {σ : Type} (e : Environment σ) (s : σ) (p : Primitive)
    (cs : List Value) :
    (∀ t, Value_GET_CAPACITY ≤ t → t < Value_HASH → cs.length ≠ 1 →
        ∃ er, Execute (.mk t p cs) e s = (.err er, s)) ∧
    (∃ er, Execute (.mk Value_APPLY p []) e s = (.err er, s)) ∧
    (cs.length ≠ 3 → ∃ er, Execute (.mk Value_REDUCE p cs) e s = (.err er, s)) ∧
    (cs.length ≠ 2 → ∃ er, evaluateList (.mk Value_MAP p cs) e s = (.err er, s)) ∧
    (cs.length ≠ 2 → ∃ er s1, Execute (.mk Value_EQUAL p cs) e s = (.err er, s1)) ∧
    (cs.length ≠ 2 → ∃ er s1, Execute (.mk Value_PLUS p cs) e s = (.err er, s1)) ∧
    (∀ expr, (Execute expr e s).1 ≠ .panic) ∧
    (∀ list, (evaluateList list e s).1 ≠ .panic) := by
  have hop : ∀ t, t = Value_EQUAL ∨ t = Value_PLUS → cs.length ≠ 2 →
      ∃ er s1, Execute (.mk t p cs) e s = (.err er, s1) := by
    intro t ht hlen
    have h73 : Value_HASH ≤ (Value.mk t p cs).GetT := by
      rcases ht with rfl | rfl <;> simp only [Value.GetT] <;> decide
    rw [Execute, evaluateValue_op (.mk t p cs) e s h73]
    simp only [Value.GetChildren, Value.GetT]
    rcases evaluateAstValues_ok_or_err e cs s with ⟨vs, s1, h, hl⟩ | ⟨er, s1, h⟩
    · rw [h]
      obtain ⟨er, her⟩ := evaluateOp_arity t vs e s1 ht (by rw [hl]; exact hlen)
      exact ⟨er, s1, her⟩
    · rw [h]
      exact ⟨er, s1, rfl⟩
  refine ⟨?_, ?_, ?_, ?_, hop _ (Or.inl rfl), hop _ (Or.inr rfl), ?_, ?_⟩
  · intro t h1 h2 hlen
    exact ⟨_, evaluateValue_get_arity t p cs e s h1 h2 hlen⟩
  · exact ⟨_, evaluateValue_apply_nil p e s⟩
  · intro hlen
    exact ⟨_, evaluateValue_reduce_arity p cs e s hlen⟩
  · intro hlen
    exact ⟨_, evaluateList_map_arity p cs e s hlen⟩
  · intro expr
    exact evaluateValue_ne_panic expr e s
  · intro list
    exact evaluateList_ne_panic list e s

theorem C17_arity_violations_fail_witness :
    (∃ er, Execute (.mk Value_GET_LOCK .unset [mkCell 1, mkCell 2]) emptyEnvironment () =
        (.err er, ())) ∧
      (∃ er, Execute (.mk Value_REDUCE .unset [mkCell 1, mkCell 2]) emptyEnvironment () =
        (.err er, ())) ∧
      ∃ er s1, Execute (.mk Value_EQUAL .unset [mkCell 1, mkCell 2, mkUint64 3])
        emptyEnvironment () = (.err er, s1) :=
  ⟨(C17_arity_violations_fail emptyEnvironment () .unset [mkCell 1, mkCell 2]).1
      Value_GET_LOCK (by decide) (by decide) (by decide),
    (C17_arity_violations_fail emptyEnvironment () .unset [mkCell 1, mkCell 2]).2.2.1
      (by decide),
    (C17_arity_violations_fail emptyEnvironment () .unset
      [mkCell 1, mkCell 2, mkUint64 3]).2.2.2.2.1 (by decide)⟩

/-- C18: the three classifiers are exactly the range tests on the tag: `isPrimitive`
iff tag < 16 (ARG), `isOp` iff tag ≥ 73 (HASH), `isGetOp` iff 48 (GET_CAPACITY) ≤ tag
< 73; no tag is in two classes; under the declared numbering UINT64, NIL, BOOL, BYTES
(0-3) are primitive, GET_CAPACITY..GET_ARGS (48-56) are structural-get, HASH..MINUS
(73-84) are operators, and ARG, PARAM, the record tags, APPLY, REDUCE, LIST,
QUERY_CELLS, MAP, FILTER (16-28) are in none of the three classes. -/
theorem C18_classifier_ranges (expr : Value) :
    ((isPrimitive expr = true ↔ expr.GetT < 16) ∧
      (isOp expr = true ↔ 73 ≤ expr.GetT) ∧
      (isGetOp expr = true ↔ 48 ≤ expr.GetT ∧ expr.GetT < 73)) ∧
    (Value_ARG = 16 ∧ Value_GET_CAPACITY = 48 ∧ Value_HASH = 73) ∧
    (¬ (isPrimitive expr = true ∧ isOp expr = true) ∧
      ¬ (isPrimitive expr = true ∧ isGetOp expr = true) ∧
      ¬ (isOp expr = true ∧ isGetOp expr = true)) ∧
    ([Value_UINT64, Value_NIL, Value_BOOL, Value_BYTES] = [0, 1, 2, 3] ∧
      ∀ t ∈ [Value_UINT64, Value_NIL, Value_BOOL, Value_BYTES], ∀ p cs,
        isPrimitive (.mk t p cs) = true) ∧
    ([Value_GET_CAPACITY, Value_GET_DATA, Value_GET_LOCK, Value_GET_TYPE, Value_GET_DATA_HASH,
        Value_GET_OUT_POINT, Value_GET_CODE_HASH, Value_GET_HASH_TYPE, Value_GET_ARGS] =
        [48, 49, 50, 51, 52, 53, 54, 55, 56] ∧
      ∀ t ∈ [Value_GET_CAPACITY, Value_GET_DATA, Value_GET_LOCK, Value_GET_TYPE,
        Value_GET_DATA_HASH, Value_GET_OUT_POINT, Value_GET_CODE_HASH, Value_GET_HASH_TYPE,
        Value_GET_ARGS], ∀ p cs, isGetOp (.mk t p cs) = true) ∧
    ([Value_HASH, Value_NOT, Value_AND, Value_OR, Value_XOR, Value_EQUAL, Value_LESS,
        Value_LEN, Value_SLICE, Value_INDEX, Value_PLUS, Value_MINUS] =
        [73, 74, 75, 76, 77, 78, 79, 80, 81, 82, 83, 84] ∧
      ∀ t ∈ [Value_HASH, Value_NOT, Value_AND, Value_OR, Value_XOR, Value_EQUAL, Value_LESS,
        Value_LEN, Value_SLICE, Value_INDEX, Value_PLUS, Value_MINUS], ∀ p cs,
        isOp (.mk t p cs) = true) ∧
    ([Value_ARG, Value_PARAM, Value_OUT_POINT, Value_CELL_DEP, Value_SCRIPT, Value_CELL,
        Value_TRANSACTION, Value_APPLY, Value_REDUCE, Value_LIST, Value_QUERY_CELLS,
        Value_MAP, Value_FILTER] = [16, 17, 18, 19, 20, 21, 22, 23, 24, 25, 26, 27, 28] ∧
      ∀ t ∈ [Value_ARG, Value_PARAM, Value_OUT_POINT, Value_CELL_DEP, Value_SCRIPT,
        Value_CELL, Value_TRANSACTION, Value_APPLY, Value_REDUCE, Value_LIST,
        Value_QUERY_CELLS, Value_MAP, Value_FILTER], ∀ p cs,
        isPrimitive (.mk t p cs) = false ∧ isOp (.mk t p cs) = false ∧
          isGetOp (.mk t p cs) = false) := by
  have hP : isPrimitive expr = true ↔ expr.GetT < 16 := by
    simp [isPrimitive, Value_ARG]
  have hO : isOp expr = true ↔ 73 ≤ expr.GetT := by
    simp [isOp, Value_HASH]
  have hG : isGetOp expr = true ↔ 48 ≤ expr.GetT ∧ expr.GetT < 73 := by
    simp [isGetOp, Value_GET_CAPACITY, Value_HASH]
  refine ⟨⟨hP, hO, hG⟩, ⟨rfl, rfl, rfl⟩, ⟨?_, ?_, ?_⟩, ⟨rfl, ?_⟩, ⟨rfl, ?_⟩, ⟨rfl, ?_⟩,
    ⟨rfl, ?_⟩⟩
  · rw [hP, hO]
    omega
  · rw [hP, hG]
    omega
  · rw [hO, hG]
    omega
  · intro t ht p cs
    simp only [List.mem_cons, List.mem_singleton, List.not_mem_nil, or_false] at ht
    rcases ht with rfl | rfl | rfl | rfl <;> rfl
  · intro t ht p cs
    simp only [List.mem_cons, List.mem_singleton, List.not_mem_nil, or_false] at ht
    rcases ht with rfl | rfl | rfl | rfl | rfl | rfl | rfl | rfl | rfl <;> rfl
  · intro t ht p cs
    simp only [List.mem_cons, List.mem_singleton, List.not_mem_nil, or_false] at ht
    rcases ht with rfl | rfl | rfl | rfl | rfl | rfl | rfl | rfl | rfl | rfl | rfl | rfl <;> rfl
  · intro t ht p cs
    simp only [List.mem_cons, List.mem_singleton, List.not_mem_nil, or_false] at ht
    rcases ht with rfl | rfl | rfl | rfl | rfl | rfl | rfl | rfl | rfl | rfl | rfl | rfl | rfl <;>
      exact ⟨rfl, rfl, rfl⟩

theorem C18_classifier_ranges_witness :
    isPrimitive (mkBool true) = true ∧ isGetOp (.mk Value_GET_DATA_HASH .unset []) = true :=
  ⟨(C18_classifier_ranges (mkBool true)).2.2.2.1.2 Value_BOOL (by simp) (.B true) [],
    (C18_classifier_ranges (mkBool true)).2.2.2.2.1.2 Value_GET_DATA_HASH (by simp) .unset []⟩

/-! ## AND: where the loop stops -/

theorem andLoop_error_iff (operands : List Value) :
    (∃ er, andLoop operands = .error er) ↔
      ∃ pre x post, operands = pre ++ x :: post ∧ x.GetT ≠ Value_BOOL ∧
        ∀ v ∈ pre, v.GetT = Value_BOOL ∧ v.GetB = true := by
  induction operands with
  | nil =>
    constructor
    · rintro ⟨er, h⟩
      cases h
    · rintro ⟨pre, x, post, h, _⟩
      simp at h
  | cons a l ih =>
    rw [andLoop]
    by_cases ht : a.GetT = Value_BOOL
    · by_cases hb : a.GetB = true
      · simp only [ne_eq, ht, not_true_eq_false, if_false, hb, Bool.not_true,
          Bool.false_eq_true]
        rw [ih]
        constructor
        · rintro ⟨pre, x, post, h1, h2, h3⟩
          refine ⟨a :: pre, x, post, by rw [h1]; rfl, h2, ?_⟩
          intro v hv
          rcases List.mem_cons.1 hv with rfl | hv'
          · exact ⟨ht, hb⟩
          · exact h3 v hv'
        · rintro ⟨pre, x, post, h1, h2, h3⟩
          cases pre with
          | nil =>
            simp only [List.nil_append, List.cons.injEq] at h1
            rw [← h1.1] at h2
            exact absurd ht h2
          | cons c pre' =>
            simp only [List.cons_append, List.cons.injEq] at h1
            exact ⟨pre', x, post, h1.2, h2, fun v hv => h3 v (List.mem_cons_of_mem c hv)⟩
      · have hbf : a.GetB = false := by simpa using hb
        simp only [ne_eq, ht, not_true_eq_false, if_false, hbf, Bool.not_false, if_true]
        constructor
        · rintro ⟨er, h⟩
          cases h
        · rintro ⟨pre, x, post, h1, h2, h3⟩
          cases pre with
          | nil =>
            simp only [List.nil_append, List.cons.injEq] at h1
            rw [← h1.1] at h2
            exact absurd ht h2
          | cons c pre' =>
            simp only [List.cons_append, List.cons.injEq] at h1
            have := (h3 c (List.mem_cons_self c pre')).2
            rw [← h1.1, hbf] at this
            cases this
    · simp only [ne_eq, ht, not_false_eq_true, if_true]
      constructor
      · intro _
        exact ⟨[], a, l, rfl, ht, fun v hv => absurd hv (List.not_mem_nil v)⟩
      · intro _
        exact ⟨_, rfl⟩

theorem andLoop_first_false (pre : List Value) (b : Value) (post : List Value)
    (hpre : ∀ v ∈ pre, v.GetT = Value_BOOL ∧ v.GetB = true) (hb : b.GetT = Value_BOOL)
    (hf : b.GetB = false) : andLoop (pre ++ b :: post) = .ok false := by
  induction pre with
  | nil =>
    rw [List.nil_append, andLoop]
    simp [hb, hf]
  | cons a l ih =>
    have ha := hpre a (List.mem_cons_self a l)
    rw [List.cons_append, andLoop]
    simp only [ne_eq, ha.1, not_true_eq_false, if_false, ha.2, Bool.not_true,
      Bool.false_eq_true]
    exact ih (fun v hv => hpre v (List.mem_cons_of_mem a hv))

theorem evaluateOp_and {σ : Type} (operands : List Value) (e : Environment σ) (s : σ)
    (hne : operands ≠ []) :
    evaluateOp Value_AND operands e s =
      match andLoop operands with
      | .error er => (.err er, s)
      | .ok result => (.ok (mkBool result), s) := by
  simp [evaluateOp, Value_AND, Value_EQUAL, Value_PLUS, hne]

/-- C19: on a non-empty list of already-evaluated operands, AND fails if and only if
some operand is not tagged BOOL and every operand before it is a BOOL with payload
true; when an operand tagged BOOL with payload false comes after operands that are
all BOOL with payload true, the result is BOOL(false) whatever follows.
AND(BOOL(false), UINT64(1)) = BOOL(false), while AND(UINT64(1), BOOL(false)) fails. -/
theorem C19_and_short_circuit {σ : Type} (e : Environment σ) (s : σ)
    (operands : List Value) (hne : operands ≠ []) :
    ((∃ er s1, evaluateOp Value_AND operands e s = (.err er, s1)) ↔
        ∃ pre x post, operands = pre ++ x :: post ∧ x.GetT ≠ Value_BOOL ∧
          ∀ v ∈ pre, v.GetT = Value_BOOL ∧ v.GetB = true) ∧
    (∀ pre b post, operands = pre ++ b :: post →
        (∀ v ∈ pre, v.GetT = Value_BOOL ∧ v.GetB = true) → b.GetT = Value_BOOL →
        b.GetB = false → evaluateOp Value_AND operands e s = (.ok (mkBool false), s)) ∧
    evaluateOp Value_AND [mkBool false, mkUint64 1] e s = (.ok (mkBool false), s) ∧
    (∃ er, evaluateOp Value_AND [mkUint64 1, mkBool false] e s = (.err er, s)) := by
  refine ⟨?_, ?_, ?_, ?_⟩
  · rw [← andLoop_error_iff, evaluateOp_and operands e s hne]
    constructor
    · rintro ⟨er, s1, h⟩
      rcases hr : andLoop operands with er2 | b
      · exact ⟨er2, rfl⟩
      · rw [hr] at h
        simp at h
    · rintro ⟨er, h⟩
      rw [h]
      exact ⟨er, s, rfl⟩
  · intro pre b post hops hpre hb hf
    rw [evaluateOp_and operands e s hne, hops, andLoop_first_false pre b post hpre hb hf]
  · have h := andLoop_first_false [] (mkBool false) [mkUint64 1] (by simp) rfl rfl
    rw [List.nil_append] at h
    rw [evaluateOp_and _ e s (by simp), h]
  · rw [evaluateOp_and _ e s (by simp)]
    exact ⟨"Invalid operand type " ++ Value_Type_String (mkUint64 1).GetT ++ " to AND!", rfl⟩

theorem C19_and_short_circuit_witness :
    evaluateOp Value_AND ([mkBool true] ++ mkBool false :: [mkCell 3]) emptyEnvironment () =
      (.ok (mkBool false), ()) :=
  (C19_and_short_circuit emptyEnvironment () ([mkBool true] ++ mkBool false :: [mkCell 3])
    (by simp)).2.1 [mkBool true] (mkBool false) [mkCell 3] rfl
    (by simp [mkBool, Value.GetT, Value.GetB, Value.GetPrimitive]) rfl rfl

/-- C20 fails as stated: with both operands tagged PARAM, PARAM(0) and PARAM(1), which
are not structurally equal, EQUAL returns BOOL(true), and the call log shows the call
`IndexParam(0, PARAM(1))`. -/
theorem C20_counterexample :
    mkParam 0 ≠ mkParam 1 ∧
      evaluateOp Value_EQUAL [mkParam 0, mkParam 1] emptyEnvironment.traced ((), []) =
        (.ok (mkBool true), ((), [Call.IndexParam 0 (mkParam 1)])) := by
  refine ⟨by simp [mkParam], ?_⟩
  rw [evaluateOp_equal, if_pos ⟨rfl, by decide⟩]
  rfl

/-- C20, amended: for every pair of already-evaluated operands x, y that are both
tagged PARAM, EQUAL performs no structural comparison: it makes the single host call
`IndexParam(int(i), y)`, with i the unsigned payload of the first operand x and y the
second operand; when the call succeeds the result is BOOL(true), equal operands or
not, and when it fails EQUAL returns exactly that error. -/
theorem C20_equal_both_param {σ : Type} (e : Environment σ) (s : σ) (log : List Call)
    (x y : Value) (hx : x.GetT = Value_PARAM) (hy : y.GetT = Value_PARAM) :
    (∀ s1, e.IndexParam (intOfUint64 x.GetU) y s = (none, s1) →
        evaluateOp Value_EQUAL [x, y] e s = (.ok (mkBool true), s1)) ∧
    (∀ er s1, e.IndexParam (intOfUint64 x.GetU) y s = (some er, s1) →
        evaluateOp Value_EQUAL [x, y] e s = (.err er, s1)) ∧
    (evaluateOp Value_EQUAL [x, y] e.traced (s, log)).2.2 =
      log ++ [Call.IndexParam (intOfUint64 x.GetU) y] := by
  have hynil : y.GetT ≠ Value_NIL := by
    rw [hy]
    decide
  have hxy : ∀ {τ : Type} (e1 : Environment τ) (t : τ),
      evaluateOp Value_EQUAL [x, y] e1 t =
        match e1.IndexParam (intOfUint64 x.GetU) y t with
        | (some er, t2) => (.err er, t2)
        | (none, t2) => (.ok (mkBool true), t2) := by
    intro τ e1 t
    rw [evaluateOp_equal, if_pos ⟨hx, hynil⟩]
  refine ⟨?_, ?_, ?_⟩
  · intro s1 h
    rw [hxy, h]
  · intro er s1 h
    rw [hxy, h]
  · rw [hxy]
    simp only [Environment.traced]
    rcases e.IndexParam (intOfUint64 x.GetU) y s with ⟨_ | er, s1⟩ <;> rfl

theorem C20_equal_both_param_witness :
    evaluateOp Value_EQUAL [mkParam 2, mkParam 2] indexingEnvironment [] =
      (.ok (mkBool true), [(intOfUint64 (mkParam 2).GetU, mkParam 2)]) :=
  (C20_equal_both_param indexingEnvironment [] [] (mkParam 2) (mkParam 2) rfl rfl).1
    [(intOfUint64 (mkParam 2).GetU, mkParam 2)] rfl

/-! ## Payloads that do not match the tag -/

theorem GetU_of_no_uint (x : Value) (h : ∀ u, x.GetPrimitive ≠ .U u) : x.GetU = 0 := by
  unfold Value.GetU
  cases hp : x.GetPrimitive with
  | unset => rfl
  | B b => rfl
  | U u => exact absurd hp (h u)
  | Raw raw => rfl

theorem GetB_of_no_bool (x : Value) (h : ∀ b, x.GetPrimitive ≠ .B b) : x.GetB = false := by
  unfold Value.GetB
  cases hp : x.GetPrimitive with
  | unset => rfl
  | B b => exact absurd hp (h b)
  | U u => rfl
  | Raw raw => rfl

theorem evaluateOp_plus {σ : Type} (x y : Value) (e : Environment σ) (s : σ)
    (hx : x.GetT = Value_UINT64) (hy : y.GetT = Value_UINT64) :
    evaluateOp Value_PLUS [x, y] e s = (.ok (mkUint64 ((x.GetU + y.GetU) % 2 ^ 64)), s) := by
  simp [evaluateOp, hx, hy, Value_PLUS, Value_EQUAL]

/-- C21 fails as stated: PLUS on an operand tagged UINT64 that carries a boolean
payload, together with UINT64(5), succeeds with UINT64(5), the missing integer read
as 0; AND on an operand tagged BOOL that carries an integer payload succeeds with
BOOL(false). -/
theorem C21_counterexample :
    evaluateOp Value_PLUS [.mk Value_UINT64 (.B true) [], mkUint64 5] emptyEnvironment () =
        (.ok (mkUint64 5), ()) ∧
      evaluateOp Value_AND [.mk Value_BOOL (.U 1) []] emptyEnvironment () =
        (.ok (mkBool false), ()) := by
  refine ⟨?_, ?_⟩
  · rw [evaluateOp_plus (.mk Value_UINT64 (.B true) []) (mkUint64 5) emptyEnvironment () rfl
      rfl]
    rfl
  · have h := andLoop_first_false [] (.mk Value_BOOL (.U 1) []) [] (by simp) rfl rfl
    rw [List.nil_append] at h
    rw [evaluateOp_and _ _ _ (by simp), h]

/-- C21, amended: the operators check the operand tags and never the payload kind.
For every pair of operands tagged UINT64, PLUS succeeds and reads an operand that
carries no unsigned-integer payload (a boolean payload, a bytes payload, or none) as
0; an operand tagged BOOL that carries no boolean payload is read by AND as false:
when every operand before it is a BOOL with payload true, AND succeeds with
BOOL(false). -/
theorem C21_payload_defaults {σ : Type} (e : Environment σ) (s : σ) :
    (∀ x y : Value, x.GetT = Value_UINT64 → y.GetT = Value_UINT64 →
        ((∀ u, x.GetPrimitive ≠ .U u) →
          evaluateOp Value_PLUS [x, y] e s = (.ok (mkUint64 (y.GetU % 2 ^ 64)), s)) ∧
        ((∀ u, y.GetPrimitive ≠ .U u) →
          evaluateOp Value_PLUS [x, y] e s = (.ok (mkUint64 (x.GetU % 2 ^ 64)), s)) ∧
        ((∀ u, x.GetPrimitive ≠ .U u) → (∀ u, y.GetPrimitive ≠ .U u) →
          evaluateOp Value_PLUS [x, y] e s = (.ok (mkUint64 0), s))) ∧
    (∀ (pre : List Value) (b : Value) (post : List Value),
        (∀ v ∈ pre, v.GetT = Value_BOOL ∧ v.GetB = true) → b.GetT = Value_BOOL →
        (∀ v, b.GetPrimitive ≠ .B v) →
        evaluateOp Value_AND (pre ++ b :: post) e s = (.ok (mkBool false), s)) := by
  refine ⟨?_, ?_⟩
  · intro x y hx hy
    refine ⟨?_, ?_, ?_⟩
    · intro hnx
      rw [evaluateOp_plus x y e s hx hy, GetU_of_no_uint x hnx, Nat.zero_add]
    · intro hny
      rw [evaluateOp_plus x y e s hx hy, GetU_of_no_uint y hny, Nat.add_zero]
    · intro hnx hny
      rw [evaluateOp_plus x y e s hx hy, GetU_of_no_uint x hnx, GetU_of_no_uint y hny]
      rfl
  · intro pre b post hpre hb hnb
    rw [evaluateOp_and _ e s (by simp),
      andLoop_first_false pre b post hpre hb (GetB_of_no_bool b hnb)]

theorem C21_payload_defaults_witness :
    evaluateOp Value_PLUS [.mk Value_UINT64 (.Raw [1, 2]) [], mkUint64 5] emptyEnvironment () =
        (.ok (mkUint64 ((mkUint64 5).GetU % 2 ^ 64)), ()) ∧
      evaluateOp Value_AND ([mkBool true] ++ .mk Value_BOOL .unset [] :: [mkUint64 1])
        emptyEnvironment () = (.ok (mkBool false), ()) :=
  ⟨((C21_payload_defaults emptyEnvironment ()).1 (.mk Value_UINT64 (.Raw [1, 2]) [])
      (mkUint64 5) rfl rfl).1 (by simp [Value.GetPrimitive]),
    (C21_payload_defaults emptyEnvironment ()).2 [mkBool true] (.mk Value_BOOL .unset [])
      [mkUint64 1] (by simp [mkBool, Value.GetT, Value.GetB, Value.GetPrimitive]) rfl
      (by simp [Value.GetPrimitive])⟩

/-! ## Termination -/

theorem evaluateValue_ok_or_err {σ : Type} (e : Environment σ) (expr : Value) (s : σ) :
    (∃ v s1, evaluateValue expr e s = (.ok v, s1)) ∨
      ∃ er s1, evaluateValue expr e s = (.err er, s1) := by
  have hnp := evaluateValue_ne_panic expr e s
  rcases hr : evaluateValue expr e s with ⟨r, s1⟩
  rw [hr] at hnp
  cases r with
  | ok v => exact Or.inl ⟨v, s1, rfl⟩
  | err er => exact Or.inr ⟨er, s1, rfl⟩
  | panic => exact absurd rfl hnp

theorem evaluateList_ok_or_err {σ : Type} (e : Environment σ) (list : Value) (s : σ) :
    (∃ vs s1, evaluateList list e s = (.ok vs, s1)) ∨
      ∃ er s1, evaluateList list e s = (.err er, s1) := by
  have hnp := evaluateList_ne_panic list e s
  rcases hr : evaluateList list e s with ⟨r, s1⟩
  rw [hr] at hnp
  cases r with
  | ok vs => exact Or.inl ⟨vs, s1, rfl⟩
  | err er => exact Or.inr ⟨er, s1, rfl⟩
  | panic => exact absurd rfl hnp

/-- C22: evaluation terminates on every input. `evaluateValue`, `evaluateAstValues`
and `evaluateList` are total functions, defined by recursion on the size of the
expression alone (the environment and the host state are not part of the measure), and
for every expression, environment and host state each of them returns a value or an
error. Every child of an expression is strictly smaller than the expression, which is
what each recursive call descends on; what the host hands back is data: on a host
whose `Arg(0)` is the node ARG(0) itself, `Execute` of ARG(0) returns that node, and
a REDUCE over a `QueryCell` result made of expression nodes folds them as values. -/
theorem C22_evaluation_terminates {σ : Type} (e : Environment σ) (s : σ) :
    (∀ expr, (∃ v s1, evaluateValue expr e s = (.ok v, s1)) ∨
        ∃ er s1, evaluateValue expr e s = (.err er, s1)) ∧
    (∀ values, (∃ vs s1, evaluateAstValues values e s = (.ok vs, s1)) ∨
        ∃ er s1, evaluateAstValues values e s = (.err er, s1)) ∧
    (∀ list, (∃ vs s1, evaluateList list e s = (.ok vs, s1)) ∨
        ∃ er s1, evaluateList list e s = (.err er, s1)) ∧
    (∀ (expr c : Value), c ∈ expr.GetChildren →
        sizeOf c < sizeOf expr ∧ sizeOf expr.GetChildren < sizeOf expr) ∧
    Execute (mkArg 0) selfReferringEnvironment () = (.ok (mkArg 0), ()) ∧
    Execute (.mk Value_REDUCE .unset [mkArg 1, mkUint64 0, queryCells])
      selfReferringEnvironment () = (.ok queryCells, ()) := by
  refine ⟨fun expr => evaluateValue_ok_or_err e expr s, ?_,
    fun list => evaluateList_ok_or_err e list s, ?_, ?_, ?_⟩
  · intro values
    rcases evaluateAstValues_ok_or_err e values s with ⟨vs, s1, h, _⟩ | h
    · exact Or.inl ⟨vs, s1, h⟩
    · exact Or.inr h
  · intro expr c hc
    cases expr with
    | mk t p cs =>
      have h1 : sizeOf c < sizeOf cs := List.sizeOf_lt_of_mem hc
      simp only [Value.mk.sizeOf_spec, Value.GetChildren]
      omega
  · rw [Execute, mkArg, evaluateValue_arg]
    rfl
  · have h1 : intOfUint64 (Value.mk Value_ARG (.U 1) []).GetU = 1 := by decide
    rw [Execute, evaluateValue_reduce,
      evaluateValue_primitive (mkUint64 0) selfReferringEnvironment () (by decide)]
    simp only [evaluateList_query queryCells selfReferringEnvironment () rfl]
    simp only [selfReferringEnvironment, reduceLoop, mkArg, evaluateValue_arg, h1]
    rfl

theorem C22_evaluation_terminates_witness :
    sizeOf (mkArg 1) < sizeOf plusArgs ∧ sizeOf plusArgs.GetChildren < sizeOf plusArgs :=
  (C22_evaluation_terminates emptyEnvironment ()).2.2.2.1 plusArgs (mkArg 1)
    (by simp [plusArgs, Value.GetChildren])
end Animagus
